import Mathlib

/-!
# GPSNode: capture, queue and batched upload of NMEA records

A shallow embedding of `src/GPSNode.cpp` (namespace `Tracker`, class `GPSNode`).

* Text is a list of byte values (`List Nat`); a C string is the list of the
  bytes that precede its terminating NUL.
* `_validateNmeaChecksum` reads its record through `byteAt`, which answers
  `none` for an index outside the string, so a result `none` stands for a read
  outside the string (undefined behaviour in C).
* The record queue (`SDQueue`), the serial port and the network are
  collaborators of the class: the queue is modelled from its documented
  contract, the serial port is a parameter, and the network is an explicit
  environment that supplies the outcome of every wait and every clock test.
* Fields added for observation only (`removed`, `posted`, `published`,
  `reads`, `target`, `attempts`) record the calls the code makes; no branch of
  the model reads them.
* Counters are natural numbers: their C width is declared in the class header,
  and wrap-around is not part of what is proved here.
-/

namespace GPSNode

/-! ## Text -/

/-- Byte values of a text literal. -/
def bytes (s : String) : List Nat := s.toList.map Char.toNat

/-- C string stored in a buffer: the bytes before the first NUL. -/
def cstr (buf : List Nat) : List Nat := buf.takeWhile (fun c => c != 0)

/-- Source: `const char* GPS_GGA = "$GPGGA";` -/
def GPS_GGA : List Nat := bytes "$GPGGA"

/-- Source: `const char* GPS_RMC = "$GPRMC";` -/
def GPS_RMC : List Nat := bytes "$GPRMC"

/-- Source: `const char CHAR_SPACE = ' ';` -/
def CHAR_SPACE : Nat := 32

/-- A record as the code sees it: the C string held in a record buffer. -/
abbrev Record := List Nat

/-! ## Checksum validator -/

/-- Source `GPSNode::_fromHex(char a)`, on the byte value of `a`; the result is
a C `int` and is negative for a byte below `'0'`. (A target with a signed
`char` would pass `a - 256` for `a ≥ 128`; that changes neither digit's
contribution modulo 256, see `fromHex_signed_char`.) -/
def _fromHex (a : Int) : Int :=
  if 65 ≤ a ∧ a ≤ 70 then a - 65 + 10
  else if 97 ≤ a ∧ a ≤ 102 then a - 97 + 10
  else a - 48

/-- Read of `*(gpsRecord + i)`: the byte at index `i`, or `none` when `i` is not
an index of the string. -/
def byteAt (s : List Nat) (i : Int) : Option Nat :=
  if 0 ≤ i then s[i.toNat]? else none

/-- Indices visited by `for (int i=1; i<len-4; i++)`: `1, 2, …, len-5`. -/
def crcIndices (len : Nat) : List Nat := List.range' 1 (len - 5)

/-- Body of the checksum loop, `realCrc ^= (byte)*(gpsRecord+i)`, run over the
given indices. -/
def crcLoop (s : List Nat) : List Nat → Nat → Option Nat
  | [], realCrc => some realCrc
  | i :: rest, realCrc =>
    match byteAt s i with
    | some c => crcLoop s rest (realCrc ^^^ (c % 256))
    | none => none

/-- Source `GPSNode::_validateNmeaChecksum(char* gpsRecord)`.
`len = strlen(gpsRecord)`; the loop XORs the bytes at `1 … len-5`; the expected
value is `(byte)(16 * _fromHex(gpsRecord[len-3]) + _fromHex(gpsRecord[len-2]))`. -/
def _validateNmeaChecksum (gpsRecord : List Nat) : Option Bool :=
  let len : Int := gpsRecord.length
  match crcLoop gpsRecord (crcIndices gpsRecord.length) 0 with
  | none => none
  | some realCrc =>
    match byteAt gpsRecord (len - 3), byteAt gpsRecord (len - 2) with
    | some a, some b =>
      some (decide ((realCrc : Int) = (16 * _fromHex a + _fromHex b) % 256))
    | _, _ => none

/-- Every index `_validateNmeaChecksum` dereferences on a string of length
`len`, in program order: the loop indices, then `len-3` and `len-2`. -/
def readIndices (len : Nat) : List Int :=
  (crcIndices len).map Int.ofNat ++ [(len : Int) - 3, (len : Int) - 2]

/-- The validator's answer as its callers use it. For a record on which the
validator reads outside the string the C result is undefined; `ub` supplies
the answer observed in that case, and every statement below holds for every
`ub`. -/
def verdict (ub : Record → Bool) (r : Record) : Bool :=
  (_validateNmeaChecksum r).getD (ub r)

/-! ## Values used to state the checksum claims -/

/-- XOR of a list of bytes. -/
def xorBytes (body : List Nat) : Nat := body.foldl (fun acc b => acc ^^^ b) 0

/-- Whether a byte is one of `0-9`, `A-F`, `a-f`. -/
def isHexDigit (c : Nat) : Bool :=
  (48 ≤ c && c ≤ 57) || (65 ≤ c && c ≤ 70) || (97 ≤ c && c ≤ 102)

/-- Value of a hexadecimal digit, upper and lower case alike. -/
def hexValue (c : Nat) : Nat :=
  if 48 ≤ c ∧ c ≤ 57 then c - 48
  else if 65 ≤ c ∧ c ≤ 70 then c - 55
  else c - 87

/-- The character for a hexadecimal digit value below 16 (upper case). -/
def hexChar (v : Nat) : Nat := if v < 10 then 48 + v else 55 + v

/-- A sentence as the receiver emits it and `_readGpsRecord` stores it:
`$`, the body, `*`, the two checksum digits, and the carriage return that
`readStringUntil('\n')` leaves in place. -/
def sentence (body : List Nat) : Record :=
  36 :: body ++ [42, hexChar (xorBytes body / 16), hexChar (xorBytes body % 16), 13]

/-! ## Record queue -/

namespace SDQueue

/-- Modelled from the spec: class `SDQueue` is declared outside `src/`; §6
gives `push(record)`: "Appends one fixed-length record". -/
def push (q : List Record) (r : Record) : List Record := q ++ [r]

/-- Modelled from the spec: `flush()` "Forces buffered writes durable;
idempotent"; the content of the queue is unchanged. -/
def flush (q : List Record) : List Record := q

/-- Modelled from the spec: `peek(outBuffer, index)` "Copies the record at
0-based offset `index` from the head into `outBuffer`; returns false if
`index` ≥ current count". `none` is the `false` return. -/
def peek (q : List Record) (index : Nat) : Option Record := q[index]?

/-- Modelled from the spec: `removeElements(n)` "Permanently deletes the first
`n` records from the head; no-op-safe if `n` exceeds count": asking for more
records than are stored is safe and deletes the ones that are there. -/
def removeElements (q : List Record) (n : Nat) : List Record := q.drop n

/-- Modelled from the spec: `getCount()` "Returns current record count". -/
def getCount (q : List Record) : Nat := q.length

end SDQueue

/-! ## State -/

/-- Members of `GPSNode` that the modelled functions read or write, under their
source names, followed by four observation logs. -/
structure State where
  _initialized : Bool
  _messageType : Bool
  _sdQueue : List Record
  _totalUploadCountSuccess : Nat
  _totalUploadBytesSuccess : Nat
  _totalUploadTimeSuccess : Nat
  _totalUploadRecordsSuccess : Nat
  _totalUploadRecordCRCError : Nat
  _totalUploadCountError : Nat
  _totalUploadBytesError : Nat
  _totalUploadTimeError : Nat
  _totalRecordsReadSuccess : Nat
  _totalRecordsReadError : Nat
  /-- Arguments of the `removeElements` calls made, oldest first. -/
  removed : List Nat
  /-- Bodies written by `client.print(_gpsUploadBuffer)`, oldest first. -/
  posted : List (List Nat)
  /-- Calls `setProperty(name).send(record)`, oldest first. -/
  published : List (List Nat × Record)
  /-- First arguments of the calls of `_readGpsRecord`, oldest first. -/
  reads : List (List Nat)
  deriving DecidableEq, Repr

/-! ## Upload pipeline -/

/-- Locals of one pass of the chunk-build loop of `_sendNextGpsData`:
`strlen(_gpsUploadBuffer)` is `buffer.length`. -/
structure Chunk where
  buffer : List Nat
  sdRecordsCount : Nat
  sdRecordsOK : Nat
  sdRecordsError : Nat
  deriving DecidableEq, Repr

set_option linter.unusedVariables false in
/-- Source, lines 172-183:
`while(peek(_gpsRecord, sdRecordsCount++) && strlen(_gpsUploadBuffer) < 1150) { … }`.
The post-increment happens on every evaluation of the condition, the failing
one included. -/
def buildLoop (ub : Record → Bool) (q : List Record) (c : Chunk) : Chunk :=
  match h : SDQueue.peek q c.sdRecordsCount with
  | none => { c with sdRecordsCount := c.sdRecordsCount + 1 }
  | some gpsRecord =>
    if c.buffer.length < 1150 then
      if verdict ub gpsRecord then
        buildLoop ub q
          { c with sdRecordsCount := c.sdRecordsCount + 1
                   buffer := c.buffer ++ gpsRecord ++ [10]
                   sdRecordsOK := c.sdRecordsOK + 1 }
      else
        buildLoop ub q
          { c with sdRecordsCount := c.sdRecordsCount + 1
                   sdRecordsError := c.sdRecordsError + 1 }
    else { c with sdRecordsCount := c.sdRecordsCount + 1 }
termination_by q.length - c.sdRecordsCount
decreasing_by
  all_goals
    simp only [SDQueue.peek] at h
    have hlt : c.sdRecordsCount < q.length := by
      rcases Nat.lt_or_ge c.sdRecordsCount q.length with h1 | h1
      · exact h1
      · rw [List.getElem?_eq_none h1] at h; cases h
    omega

/-- Source, lines 166-183: the locals are zeroed, the buffer is emptied
(`strcpy(_gpsUploadBuffer, "")`) and the loop runs. -/
def buildChunk (ub : Record → Bool) (q : List Record) : Chunk :=
  buildLoop ub q { buffer := [], sdRecordsCount := 0, sdRecordsOK := 0, sdRecordsError := 0 }

/-- `Stream::readStringUntil(terminator)` on the bytes still to come: the bytes
before the first terminator (all of them when there is none and the read times
out), and what is left after the terminator is consumed. -/
def readStringUntil (terminator : Nat) (input : List Nat) : List Nat × List Nat :=
  (input.takeWhile (fun c => c != terminator),
   (input.dropWhile (fun c => c != terminator)).drop 1)

/-- What the network does on one pass of the round loop. -/
structure Exchange where
  /-- Outcome of `(millis()-startTimeUploading) < 10000` at the loop test. -/
  inTime : Bool
  /-- Bytes the server sends back before the 5000 ms wait expires (`none`:
  nothing arrives). -/
  response : Option (List Nat)
  /-- Value of `millis()-startTime` when the exchange is accounted. -/
  elapsed : Nat

/-- What the network does during one call of `_sendNextGpsData`. -/
structure RoundEnv where
  /-- Result of `client.connect(host, port)`. -/
  connects : Bool
  /-- Value of `millis()-startTime` after a failed connect. -/
  connectTime : Nat
  /-- The exchange met on pass `i` of the round loop. -/
  exchanges : Nat → Exchange

/-- Source, lines 201-213: the wait `while (client.available() < 15)` ends with
the response when at least 15 bytes arrive in time, and with `none` (the
timeout branch) otherwise. -/
def awaitResponse (r : Option (List Nat)) : Option (List Nat) :=
  match r with
  | some resp => if resp.length < 15 then none else some resp
  | none => none

/-- Source, lines 232-234 and 238-240 (and 206-208 on timeout): the three error
counters. -/
def accountError (s : State) (c : Chunk) (elapsed : Nat) : State :=
  { s with _totalUploadBytesError := s._totalUploadBytesError + c.buffer.length
           _totalUploadCountError := s._totalUploadCountError + 1
           _totalUploadTimeError := s._totalUploadTimeError + elapsed }

/-- Source, lines 224-229: the success counters and the bulk removal. -/
def accountSuccess (s : State) (c : Chunk) (elapsed : Nat) : State :=
  { s with _totalUploadBytesSuccess := s._totalUploadBytesSuccess + c.buffer.length
           _totalUploadCountSuccess := s._totalUploadCountSuccess + 1
           _totalUploadTimeSuccess := s._totalUploadTimeSuccess + elapsed
           _totalUploadRecordsSuccess := s._totalUploadRecordsSuccess + c.sdRecordsOK
           _totalUploadRecordCRCError := s._totalUploadRecordCRCError + c.sdRecordsError
           _sdQueue := SDQueue.removeElements s._sdQueue c.sdRecordsCount
           removed := s.removed ++ [c.sdRecordsCount] }

/-- Source, lines 164-264: the round loop
`for(int i=0; i<10 && ((millis()-startTimeUploading)<10000); i++)`, from pass
`i` on. -/
def roundLoop (ub : Record → Bool) (env : Nat → Exchange) (i : Nat) (s : State) : State :=
  if i < 10 ∧ (env i).inTime = true then
    let c := buildChunk ub s._sdQueue
    if c.buffer.length > 0 then
      let s1 := { s with posted := s.posted ++ [c.buffer] }
      match awaitResponse (env i).response with
      | none => accountError s1 c (env i).elapsed
      | some resp =>
        let first := readStringUntil CHAR_SPACE resp
        if first.1.length > 0 then
          let code := (readStringUntil CHAR_SPACE first.2).1
          if code = bytes "201" then
            roundLoop ub env (i + 1) (accountSuccess s1 c (env i).elapsed)
          else
            roundLoop ub env (i + 1) (accountError s1 c (env i).elapsed)
        else
          roundLoop ub env (i + 1) (accountError s1 c (env i).elapsed)
    else if c.sdRecordsError > 0 then
      { s with _sdQueue := SDQueue.removeElements s._sdQueue c.sdRecordsError
               removed := s.removed ++ [c.sdRecordsError]
               _totalUploadRecordCRCError := s._totalUploadRecordCRCError + c.sdRecordsError }
    else s
  else s
termination_by 10 - i
decreasing_by all_goals omega

/-- Source `GPSNode::_sendNextGpsData()`. -/
def _sendNextGpsData (ub : Record → Bool) (env : RoundEnv) (s : State) : State :=
  if s._initialized = false then s
  else
    let s0 := { s with _sdQueue := SDQueue.flush s._sdQueue }
    if SDQueue.getCount s0._sdQueue = 0 then s0
    else if env.connects = false then
      { s0 with _totalUploadCountError := s0._totalUploadCountError + 1
                _totalUploadTimeError := s0._totalUploadTimeError + env.connectTime }
    else roundLoop ub env.exchanges 0 s0

/-! ## Acquisition -/

/-- The two calls `_readGpsRecord` makes on `Serial` (Arduino `Stream`), acting
on a port state `σ`: `find(target)` discards input up to and including the
target, `readStringUntil(terminator)` returns the text read. -/
structure SerialPort (σ : Type) where
  find : List Nat → σ → σ
  readStringUntil : Nat → σ → List Nat × σ

/-- Source, lines 296-300: `strcpy(gpsRecord, pfx)`, then `memcpy` of
`GPS_RECORD_LENGTH - strlen(pfx)` bytes of `tmp.c_str()`, then a NUL at offset
`GPS_RECORD_LENGTH - 1`: the C string left in the buffer. -/
def assembleRecord (GPS_RECORD_LENGTH : Nat) (pfx tmp : List Nat) : Record :=
  cstr ((pfx ++ tmp).take (GPS_RECORD_LENGTH - 1))

/-- Result of `_readGpsRecord`: the returned flag, the record left in the
buffer, the port afterwards; and, for observation, the prefix the call was
given and the records assembled by the attempts made. -/
structure ReadResult (σ : Type) where
  valid : Bool
  gpsRecord : Record
  serial : σ
  target : List Nat
  attempts : List Record

/-- Source, lines 291-304: `do { … } while(!valid && t++<2);` entered with the
given `t`. -/
def readLoop {σ : Type} (port : SerialPort σ) (GPS_RECORD_LENGTH : Nat) (ub : Record → Bool)
    (pfx : List Nat) (t : Nat) (serial : σ) (attempts : List Record) : ReadResult σ :=
  let serial1 := port.find pfx serial
  let tmp := port.readStringUntil 10 serial1
  let gpsRecord := assembleRecord GPS_RECORD_LENGTH pfx tmp.1
  let valid := verdict ub gpsRecord
  if valid = false ∧ t < 2 then
    readLoop port GPS_RECORD_LENGTH ub pfx (t + 1) tmp.2 (attempts ++ [gpsRecord])
  else
    { valid := valid, gpsRecord := gpsRecord, serial := tmp.2, target := pfx,
      attempts := attempts ++ [gpsRecord] }
termination_by 2 - t
decreasing_by omega

/-- Source `GPSNode::_readGpsRecord(const char* prefix, char* gpsRecord)`. -/
def _readGpsRecord {σ : Type} (port : SerialPort σ) (GPS_RECORD_LENGTH : Nat)
    (ub : Record → Bool) (pfx : List Nat) (serial : σ) : ReadResult σ :=
  readLoop port GPS_RECORD_LENGTH ub pfx 0 serial []

/-- Source `GPSNode::loop()`, lines 101-107: the call of `_readGpsRecord` made
by a capture tick, `GPS_GGA` when `_messageType` is set and `GPS_RMC` otherwise. -/
def tickRead {σ : Type} (port : SerialPort σ) (GPS_RECORD_LENGTH : Nat)
    (ub : Record → Bool) (serial : σ) (s : State) : ReadResult σ :=
  if s._messageType = true then _readGpsRecord port GPS_RECORD_LENGTH ub GPS_GGA serial
  else _readGpsRecord port GPS_RECORD_LENGTH ub GPS_RMC serial

/-- Source `GPSNode::loop()`, lines 95-133: the body run when `_gpsTimer` is
due. `connected` is `Homie.isConnected()` at line 120. -/
def captureTick {σ : Type} (port : SerialPort σ) (GPS_RECORD_LENGTH : Nat)
    (ub : Record → Bool) (connected : Bool) (serial : σ) (s : State) : State × σ :=
  let r := tickRead port GPS_RECORD_LENGTH ub serial s
  let s1 := { s with _messageType := !s._messageType, reads := s.reads ++ [r.target] }
  if r.valid = true then
    let s2 := { s1 with _sdQueue := SDQueue.push s1._sdQueue r.gpsRecord
                        _totalRecordsReadSuccess := s1._totalRecordsReadSuccess + 1 }
    if connected = true then
      if s2._messageType = true then
        ({ s2 with published := s2.published ++ [(bytes "rmc", r.gpsRecord)] }, r.serial)
      else
        ({ s2 with published := s2.published ++ [(bytes "gga", r.gpsRecord)] }, r.serial)
    else (s2, r.serial)
  else
    ({ s1 with _totalRecordsReadError := s1._totalRecordsReadError + 1 }, r.serial)

/-! ## The chunk-build loop as a recursion on the records ahead of the cursor -/

/-- The chunk-build loop seen from the records at and after the cursor: the
same three branches as `buildLoop`, with `peek` failing on the empty list. -/
def buildFrom (ub : Record → Bool) : List Record → Chunk → Chunk
  | [], c => { c with sdRecordsCount := c.sdRecordsCount + 1 }
  | gpsRecord :: rest, c =>
    if c.buffer.length < 1150 then
      if verdict ub gpsRecord then
        buildFrom ub rest
          { c with sdRecordsCount := c.sdRecordsCount + 1
                   buffer := c.buffer ++ gpsRecord ++ [10]
                   sdRecordsOK := c.sdRecordsOK + 1 }
      else
        buildFrom ub rest
          { c with sdRecordsCount := c.sdRecordsCount + 1
                   sdRecordsError := c.sdRecordsError + 1 }
    else { c with sdRecordsCount := c.sdRecordsCount + 1 }

/-- Text the loop appends for a run of examined records: every record that
passes validation, each followed by a newline. -/
def chunkText (ub : Record → Bool) (l : List Record) : List Nat :=
  ((l.filter (verdict ub)).map (fun r => r ++ [10])).flatten

/-- Byte length of a run of records once each is followed by a newline. -/
def terminatedLength (l : List Record) : Nat := (l.map (fun r => r.length + 1)).sum

/-! ## Values used to state the upload claims -/

/-- Following the spec's words for chunk sizing: the size of the largest prefix
of the queue whose concatenated, newline-terminated length stays below the
ceiling. -/
def largestPrefixBelow (ceiling : Nat) (q : List Record) : Nat :=
  ((List.range (q.length + 1)).filter
    (fun k => decide (terminatedLength (q.take k) < ceiling))).foldl max 0

/-- Number of passes the round loop makes from pass `i` on when no pass ends
the round: the passes `i, i+1, …` below 10 that start within the time budget. -/
def passesFrom (env : Nat → Exchange) (i : Nat) : Nat :=
  ((List.range' i (10 - i)).takeWhile (fun k => (env k).inTime)).length

/-! ## Sample records, queues, states and networks -/

/-- A record of 80 bytes that passes the validator: 75 body bytes, the last
one depending on `k`, so that the records for `k < 128` differ. -/
def sample80 (k : Nat) : Record := sentence (List.replicate 74 65 ++ [48 + k % 128])

/-- A queue of `n` valid records of 80 bytes each. -/
def sampleQueue (n : Nat) : List Record := (List.range n).map sample80

/-- A node that is set up, holds the queue `q`, and has all counters at zero. -/
def idleState (q : List Record) : State :=
  { _initialized := true, _messageType := true, _sdQueue := q,
    _totalUploadCountSuccess := 0, _totalUploadBytesSuccess := 0, _totalUploadTimeSuccess := 0,
    _totalUploadRecordsSuccess := 0, _totalUploadRecordCRCError := 0,
    _totalUploadCountError := 0, _totalUploadBytesError := 0, _totalUploadTimeError := 0,
    _totalRecordsReadSuccess := 0, _totalRecordsReadError := 0,
    removed := [], posted := [], published := [], reads := [] }

/-- A network on which the connection opens, every pass starts within the time
budget, and the server answers every request with `resp` after 100 ms. -/
def answering (resp : List Nat) : RoundEnv :=
  { connects := true, connectTime := 0,
    exchanges := fun _ => { inTime := true, response := some resp, elapsed := 100 } }

/-- Sample of `Stream::find`: drop the input up to and including the first
occurrence of the target, or all of it when the target never comes. -/
def dropThrough (target : List Nat) : List Nat → List Nat
  | [] => []
  | x :: xs =>
    if target.isPrefixOf (x :: xs) then (x :: xs).drop target.length
    else dropThrough target xs

/-- A serial port whose state is the list of bytes still to arrive. -/
def listPort : SerialPort (List Nat) :=
  { find := dropThrough, readStringUntil := readStringUntil }

/-- Serial input: the tail of a sentence, then a complete GGA sentence. -/
def sampleSerial : List Nat :=
  bytes "4,M,,*21\r\n$GPGGA,123519,4807.038,N,01131.000,E,1,08,0.9,545.4,M,46.9,M,,*47\r\n"

/-! ## Checksum validator: lemmas -/

theorem byteAt_ofNat (s : List Nat) (i : Nat) : byteAt s (i : Int) = s[i]? := by
  simp [byteAt]

theorem crcLoop_range (s : List Nat) (n : Nat) :
    ∀ (k crc : Nat), k + n ≤ s.length →
      crcLoop s (List.range' k n) crc
        = some (((s.drop k).take n).foldl (fun acc b => acc ^^^ (b % 256)) crc) := by
  induction n with
  | zero => intro k crc _; simp [crcLoop]
  | succ n ih =>
    intro k crc h
    have hk : k < s.length := by omega
    rw [List.range'_succ, crcLoop, byteAt_ofNat, List.getElem?_eq_getElem hk]
    simp only
    rw [ih (k + 1) _ (by omega), List.drop_eq_getElem_cons hk, List.take_succ_cons,
      List.foldl_cons]

theorem foldl_xor_mod (l : List Nat) (crc : Nat) :
    l.foldl (fun acc b => acc ^^^ (b % 256)) crc
      = (l.map (fun b => b % 256)).foldl (fun acc b => acc ^^^ b) crc := by
  rw [List.foldl_map]

/-- On a string of at least 3 bytes the validator is defined and compares the
XOR of the bytes at `1 … len-5` with the byte made of the two characters at
`len-3` and `len-2`. -/
theorem validate_of_three_le (s : List Nat) (h : 3 ≤ s.length) :
    ∃ a b, s[s.length - 3]? = some a ∧ s[s.length - 2]? = some b ∧
      _validateNmeaChecksum s
        = some (decide ((xorBytes (((s.drop 1).take (s.length - 5)).map (fun c => c % 256)) : Int)
            = (16 * _fromHex a + _fromHex b) % 256)) := by
  have h3 : s.length - 3 < s.length := by omega
  have h2 : s.length - 2 < s.length := by omega
  refine ⟨s[s.length - 3], s[s.length - 2], List.getElem?_eq_getElem h3,
    List.getElem?_eq_getElem h2, ?_⟩
  have e3 : ((s.length : Int) - 3) = ((s.length - 3 : Nat) : Int) := by omega
  have e2 : ((s.length : Int) - 2) = ((s.length - 2 : Nat) : Int) := by omega
  have hc : crcLoop s (crcIndices s.length) 0
      = some (xorBytes (((s.drop 1).take (s.length - 5)).map (fun c => c % 256))) := by
    rw [crcIndices, crcLoop_range s (s.length - 5) 1 0 (by omega), foldl_xor_mod]
    rfl
  simp only [_validateNmeaChecksum, hc, e3, e2, byteAt_ofNat, List.getElem?_eq_getElem h3,
    List.getElem?_eq_getElem h2]

theorem validate_of_lt_three (s : List Nat) (h : s.length < 3) :
    _validateNmeaChecksum s = none := by
  have e3 : byteAt s ((s.length : Int) - 3) = none := by
    simp only [byteAt]; rw [if_neg (by omega)]
  simp only [_validateNmeaChecksum, e3]
  split <;> rfl

theorem validate_isSome_iff (s : List Nat) :
    (_validateNmeaChecksum s).isSome = true ↔ 3 ≤ s.length := by
  constructor
  · intro h
    by_contra hc
    rw [validate_of_lt_three s (by omega)] at h
    cases h
  · intro h
    obtain ⟨a, b, _, _, e⟩ := validate_of_three_le s h
    rw [e]; rfl

theorem readIndices_inBounds (len : Nat) (h : 3 ≤ len) :
    ∀ i ∈ readIndices len, 0 ≤ i ∧ i < (len : Int) := by
  intro i hi
  simp only [readIndices, crcIndices, List.mem_append, List.mem_map, List.mem_range',
    List.mem_cons, List.mem_singleton, List.not_mem_nil, or_false] at hi
  rcases hi with ⟨k, ⟨j, hj, hk⟩, rfl⟩ | rfl | rfl
  · simp only [Int.ofNat_eq_coe]; omega
  · omega
  · omega

theorem fromHex_hexDigit (c : Nat) (h : isHexDigit c = true) :
    _fromHex (c : Int) = (hexValue c : Int) ∧ hexValue c < 16 := by
  simp only [isHexDigit, Bool.or_eq_true, Bool.and_eq_true, decide_eq_true_eq] at h
  unfold _fromHex hexValue
  split_ifs <;> omega

theorem map_mod_of_lt (body : List Nat) (hb : ∀ b ∈ body, b < 256) :
    body.map (fun c => c % 256) = body := by
  induction body with
  | nil => rfl
  | cons x xs ih =>
    have hx : x < 256 := hb x (List.mem_cons_self x xs)
    rw [List.map_cons, ih (fun b hbm => hb b (List.mem_cons_of_mem x hbm)),
      Nat.mod_eq_of_lt hx]

/-- The validator on `lead :: body ++ [star, h1, h2, t]`: one byte follows the
two checksum characters. -/
theorem validate_envelope (lead star h1 h2 t : Nat) (body : List Nat) :
    _validateNmeaChecksum (lead :: body ++ [star, h1, h2, t])
      = some (decide ((xorBytes (body.map (fun c => c % 256)) : Int)
          = (16 * _fromHex h1 + _fromHex h2) % 256)) := by
  obtain ⟨a, b, ha, hb, e⟩ :=
    validate_of_three_le (lead :: body ++ [star, h1, h2, t]) (by simp)
  have hlen : (lead :: body ++ [star, h1, h2, t]).length = body.length + 5 := by simp
  have hs : lead :: body ++ [star, h1, h2, t] = (lead :: body ++ [star]) ++ [h1, h2, t] := by
    simp
  have hl : (lead :: body ++ [star]).length = body.length + 2 := by simp
  have ha' : a = h1 := by
    have : (lead :: body ++ [star, h1, h2, t])[body.length + 2]? = some h1 := by
      rw [hs, List.getElem?_append_right (by rw [hl]), hl]; simp
    rw [hlen] at ha
    have e1 : body.length + 5 - 3 = body.length + 2 := by omega
    rw [e1, this] at ha
    exact (Option.some.inj ha).symm
  have hb' : b = h2 := by
    have : (lead :: body ++ [star, h1, h2, t])[body.length + 3]? = some h2 := by
      rw [hs, List.getElem?_append_right (by rw [hl]; omega), hl]; simp
    rw [hlen] at hb
    have e1 : body.length + 5 - 2 = body.length + 3 := by omega
    rw [e1, this] at hb
    exact (Option.some.inj hb).symm
  have hmid : ((lead :: body ++ [star, h1, h2, t]).drop 1).take
      ((lead :: body ++ [star, h1, h2, t]).length - 5) = body := by
    rw [hlen]; simp
  rw [e, hmid, ha', hb']

/-- A signed `char` holds `a - 256` for a byte `a ≥ 128`; the expected checksum
byte is the same. -/
theorem fromHex_signed_char (a b : Int) (ha : 128 ≤ a ∧ a < 256) (hb : 128 ≤ b ∧ b < 256) :
    (16 * _fromHex (a - 256) + _fromHex (b - 256)) % 256
      = (16 * _fromHex a + _fromHex b) % 256
    ∧ (16 * _fromHex (a - 256) + _fromHex b) % 256 = (16 * _fromHex a + _fromHex b) % 256
    ∧ (16 * _fromHex a + _fromHex (b - 256)) % 256 = (16 * _fromHex a + _fromHex b) % 256 := by
  unfold _fromHex
  refine ⟨?_, ?_, ?_⟩ <;> split_ifs <;> omega

/-- The validator on `$<body>*<h1><h2><t>` with hexadecimal digits `h1`, `h2`. -/
theorem validate_hex_envelope (body : List Nat) (h1 h2 t : Nat)
    (hbody : ∀ b ∈ body, b < 256) (hd1 : isHexDigit h1 = true) (hd2 : isHexDigit h2 = true) :
    _validateNmeaChecksum (36 :: body ++ [42, h1, h2, t])
      = some (decide (16 * hexValue h1 + hexValue h2 = xorBytes body)) := by
  obtain ⟨e1, l1⟩ := fromHex_hexDigit h1 hd1
  obtain ⟨e2, l2⟩ := fromHex_hexDigit h2 hd2
  rw [validate_envelope, map_mod_of_lt body hbody, e1, e2]
  congr 1
  apply decide_eq_decide.mpr
  omega

theorem xorBytes_lt (body : List Nat) (hbody : ∀ b ∈ body, b < 256) : xorBytes body < 256 := by
  have key : ∀ (l : List Nat) (acc : Nat), acc < 256 → (∀ b ∈ l, b < 256) →
      l.foldl (fun acc b => acc ^^^ b) acc < 256 := by
    intro l
    induction l with
    | nil => intro acc h _; exact h
    | cons x xs ih =>
      intro acc h hl
      rw [List.foldl_cons]
      apply ih
      · exact Nat.xor_lt_two_pow (n := 8) h (hl x (List.mem_cons_self x xs))
      · exact fun b hb => hl b (List.mem_cons_of_mem x hb)
  exact key body 0 (by decide) hbody

theorem hexChar_spec (v : Nat) (h : v < 16) :
    isHexDigit (hexChar v) = true ∧ hexValue (hexChar v) = v := by
  revert v
  decide

/-- Every `sentence` passes the validator. -/
theorem sentence_valid (body : List Nat) (hbody : ∀ b ∈ body, b < 256) :
    _validateNmeaChecksum (sentence body) = some true := by
  have hx := xorBytes_lt body hbody
  obtain ⟨d1, v1⟩ := hexChar_spec (xorBytes body / 16) (by omega)
  obtain ⟨d2, v2⟩ := hexChar_spec (xorBytes body % 16) (by omega)
  rw [sentence, validate_hex_envelope body _ _ 13 hbody d1 d2, v1, v2]
  congr 1
  apply decide_eq_true
  omega

theorem sentence_length (body : List Nat) : (sentence body).length = body.length + 5 := by
  simp [sentence]

theorem verdict_of_valid (ub : Record → Bool) (r : Record)
    (h : _validateNmeaChecksum r = some true) : verdict ub r = true := by
  rw [verdict, h]; rfl

/-! ## Checksum validator: claims -/

/-- C2 (amended): for every record `$<body>*<hh><t>`, with one byte `t` (the
carriage return of the sentence) after the two hexadecimal digits, the
validator is defined and returns true if and only if `<hh>`, read as a
two-digit hexadecimal number in either case, equals the XOR of the body bytes
strictly between `$` and `*`. -/
theorem validateNmeaChecksum_sentence (body : List Nat) (h1 h2 t : Nat)
    (hbody : ∀ b ∈ body, b < 256) (hd1 : isHexDigit h1 = true) (hd2 : isHexDigit h2 = true) :
    _validateNmeaChecksum (36 :: body ++ [42, h1, h2, t])
      = some (decide (16 * hexValue h1 + hexValue h2 = xorBytes body)) :=
  validate_hex_envelope body h1 h2 t hbody hd1 hd2

/-- C2 witness: the GGA sentence `…*47` followed by a carriage return. -/
theorem validateNmeaChecksum_sentence_witness :
    (∀ b ∈ bytes "GPGGA,123519,4807.038,N,01131.000,E,1,08,0.9,545.4,M,46.9,M,,", b < 256)
    ∧ isHexDigit 52 = true ∧ isHexDigit 55 = true
    ∧ _validateNmeaChecksum
        (36 :: bytes "GPGGA,123519,4807.038,N,01131.000,E,1,08,0.9,545.4,M,46.9,M,," ++ [42, 52, 55, 13])
      = some (decide (16 * hexValue 52 + hexValue 55
          = xorBytes (bytes "GPGGA,123519,4807.038,N,01131.000,E,1,08,0.9,545.4,M,46.9,M,,"))) :=
  ⟨by decide, by decide, by decide,
    validateNmeaChecksum_sentence _ 52 55 13 (by decide) (by decide) (by decide)⟩

/-- C2 counterexample: `$A*41` ends in its two checksum digits and the digits
`41` are the XOR of the body `A`, yet the validator returns false; the same
holds for the GGA sentence `…*47` without a trailing byte. -/
theorem validateNmeaChecksum_last_two_digits_counterexample :
    (16 * hexValue 52 + hexValue 49 = xorBytes (bytes "A")
      ∧ _validateNmeaChecksum (bytes "$A*41") = some false)
    ∧ (16 * hexValue 52 + hexValue 55
          = xorBytes (bytes "GPGGA,123519,4807.038,N,01131.000,E,1,08,0.9,545.4,M,46.9,M,,")
      ∧ _validateNmeaChecksum
          (bytes "$GPGGA,123519,4807.038,N,01131.000,E,1,08,0.9,545.4,M,46.9,M,,*47")
        = some false) := by
  decide

/-- C3 (amended): for every input of at least 3 bytes, every index the
validator reads lies inside the string, and the validator returns a definite
result: true exactly when the XOR of the bytes at indices `1 … len-5` equals
`(16 * _fromHex(s[len-3]) + _fromHex(s[len-2])) mod 256`, false otherwise. It
tests neither the leading `$`, nor the `*`, nor that the checksum characters
are hexadecimal digits. -/
theorem validateNmeaChecksum_reads_inside (s : List Nat) (h : 3 ≤ s.length) :
    (∀ i ∈ readIndices s.length, 0 ≤ i ∧ i < (s.length : Int))
    ∧ ∃ a b, s[s.length - 3]? = some a ∧ s[s.length - 2]? = some b ∧
        _validateNmeaChecksum s
          = some (decide
              ((xorBytes (((s.drop 1).take (s.length - 5)).map (fun c => c % 256)) : Int)
                = (16 * _fromHex a + _fromHex b) % 256)) :=
  ⟨readIndices_inBounds s.length h, validate_of_three_le s h⟩

/-- C3 witness: the six-byte prefix `$GPGGA` alone. -/
theorem validateNmeaChecksum_reads_inside_witness :
    3 ≤ (bytes "$GPGGA").length
    ∧ ((∀ i ∈ readIndices (bytes "$GPGGA").length, 0 ≤ i ∧ i < ((bytes "$GPGGA").length : Int))
      ∧ ∃ a b, (bytes "$GPGGA")[(bytes "$GPGGA").length - 3]? = some a
          ∧ (bytes "$GPGGA")[(bytes "$GPGGA").length - 2]? = some b
          ∧ _validateNmeaChecksum (bytes "$GPGGA")
            = some (decide
                ((xorBytes ((((bytes "$GPGGA").drop 1).take ((bytes "$GPGGA").length - 5)).map
                    (fun c => c % 256)) : Int)
                  = (16 * _fromHex a + _fromHex b) % 256))) :=
  ⟨by decide, validateNmeaChecksum_reads_inside (bytes "$GPGGA") (by decide)⟩

/-- C3 counterexample: on the empty string the validator reads index `-3`,
outside the string; and malformed inputs are accepted: no leading `$`, no `*`
before the digits, checksum characters that are not hexadecimal digits, and a
three-byte string shorter than the envelope. -/
theorem validateNmeaChecksum_malformed_counterexample :
    ((-3 : Int) ∈ readIndices ([] : List Nat).length ∧ _validateNmeaChecksum [] = none)
    ∧ _validateNmeaChecksum (bytes "#A*41\r") = some true
    ∧ _validateNmeaChecksum (bytes "$A#41\r") = some true
    ∧ (isHexDigit 71 = false ∧ _validateNmeaChecksum (bytes "$p*G0\r") = some true)
    ∧ _validateNmeaChecksum (bytes "00\r") = some true := by
  decide

/-! ## Chunk building: lemmas -/

theorem buildLoop_eq_aux (ub : Record → Bool) (q : List Record) :
    ∀ (n : Nat) (c : Chunk), q.length - c.sdRecordsCount = n →
      buildLoop ub q c = buildFrom ub (q.drop c.sdRecordsCount) c := by
  intro n
  induction n with
  | zero =>
    intro c hn
    have hle : q.length ≤ c.sdRecordsCount := by omega
    rw [buildLoop, List.drop_eq_nil_of_le hle]
    split
    · rfl
    · rename_i r hr
      simp only [SDQueue.peek, List.getElem?_eq_none hle] at hr
      cases hr
  | succ n ih =>
    intro c hn
    have hlt : c.sdRecordsCount < q.length := by omega
    rw [buildLoop, List.drop_eq_getElem_cons hlt]
    split
    · rename_i hr
      simp only [SDQueue.peek, List.getElem?_eq_getElem hlt] at hr
      cases hr
    · rename_i r hr
      simp only [SDQueue.peek, List.getElem?_eq_getElem hlt] at hr
      cases hr
      simp only [buildFrom]
      split
      · split
        · exact ih _ (by simp only; omega)
        · exact ih _ (by simp only; omega)
      · rfl

theorem buildLoop_eq (ub : Record → Bool) (q : List Record) (c : Chunk) :
    buildLoop ub q c = buildFrom ub (q.drop c.sdRecordsCount) c :=
  buildLoop_eq_aux ub q _ c rfl

theorem buildChunk_eq (ub : Record → Bool) (q : List Record) :
    buildChunk ub q
      = buildFrom ub q { buffer := [], sdRecordsCount := 0, sdRecordsOK := 0, sdRecordsError := 0 } := by
  rw [buildChunk, buildLoop_eq]; rfl


theorem chunkText_nil (ub : Record → Bool) : chunkText ub [] = [] := rfl

theorem chunkText_cons_valid (ub : Record → Bool) (r : Record) (l : List Record)
    (h : verdict ub r = true) : chunkText ub (r :: l) = r ++ [10] ++ chunkText ub l := by
  simp [chunkText, List.filter_cons, h]

theorem chunkText_cons_invalid (ub : Record → Bool) (r : Record) (l : List Record)
    (h : ¬ verdict ub r = true) : chunkText ub (r :: l) = chunkText ub l := by
  simp [chunkText, List.filter_cons, h]

/-- What one run of the chunk-build loop does, in terms of the number `e` of
records it examines. -/
theorem buildFrom_spec (ub : Record → Bool) (l : List Record) :
    ∀ c : Chunk, ∃ e, e ≤ l.length
      ∧ (buildFrom ub l c).sdRecordsCount = c.sdRecordsCount + e + 1
      ∧ (buildFrom ub l c).sdRecordsOK
          = c.sdRecordsOK + ((l.take e).filter (verdict ub)).length
      ∧ (buildFrom ub l c).sdRecordsError
          = c.sdRecordsError + ((l.take e).filter (fun r => !verdict ub r)).length
      ∧ (buildFrom ub l c).buffer = c.buffer ++ chunkText ub (l.take e)
      ∧ (e < l.length → 1150 ≤ (buildFrom ub l c).buffer.length)
      ∧ (∀ j, j < e → (c.buffer ++ chunkText ub (l.take j)).length < 1150) := by
  induction l with
  | nil =>
    intro c
    exact ⟨0, le_refl _, rfl, by simp [buildFrom], by simp [buildFrom],
      by simp [buildFrom, chunkText_nil], by simp, by intro j hj; omega⟩
  | cons r rest ih =>
    intro c
    by_cases hlen : c.buffer.length < 1150
    · by_cases hv : verdict ub r = true
      · obtain ⟨e, he, h1, h2, h3, h4, h5, h6⟩ := ih
          { c with sdRecordsCount := c.sdRecordsCount + 1
                   buffer := c.buffer ++ r ++ [10]
                   sdRecordsOK := c.sdRecordsOK + 1 }
        dsimp only at h1 h2 h3 h4 h5 h6
        have hb : buildFrom ub (r :: rest) c = buildFrom ub rest
            { c with sdRecordsCount := c.sdRecordsCount + 1
                     buffer := c.buffer ++ r ++ [10]
                     sdRecordsOK := c.sdRecordsOK + 1 } := by
          simp only [buildFrom, if_pos hlen, if_pos hv]
        have hf1 : ((r :: rest).take (e + 1)).filter (verdict ub)
            = r :: (rest.take e).filter (verdict ub) := by
          rw [List.take_succ_cons, List.filter_cons, if_pos hv]
        have hf2 : ((r :: rest).take (e + 1)).filter (fun r => !verdict ub r)
            = (rest.take e).filter (fun r => !verdict ub r) := by
          rw [List.take_succ_cons, List.filter_cons]; simp [hv]
        refine ⟨e + 1, by simp only [List.length_cons]; omega, ?_, ?_, ?_, ?_, ?_, ?_⟩
        · rw [hb, h1]; omega
        · rw [hb, h2, hf1, List.length_cons]; omega
        · rw [hb, h3, hf2]
        · rw [hb, h4, List.take_succ_cons, chunkText_cons_valid ub r _ hv]
          simp only [List.append_assoc]
        · intro hlt
          rw [hb]
          exact h5 (by simp only [List.length_cons] at hlt; omega)
        · intro j hj
          cases j with
          | zero => simpa [chunkText_nil] using hlen
          | succ j =>
            have := h6 j (by omega)
            rw [List.take_succ_cons, chunkText_cons_valid ub r _ hv]
            simpa only [List.append_assoc] using this
      · obtain ⟨e, he, h1, h2, h3, h4, h5, h6⟩ := ih
          { c with sdRecordsCount := c.sdRecordsCount + 1
                   sdRecordsError := c.sdRecordsError + 1 }
        dsimp only at h1 h2 h3 h4 h5 h6
        have hb : buildFrom ub (r :: rest) c = buildFrom ub rest
            { c with sdRecordsCount := c.sdRecordsCount + 1
                     sdRecordsError := c.sdRecordsError + 1 } := by
          simp only [buildFrom, if_pos hlen, if_neg hv]
        have hf1 : ((r :: rest).take (e + 1)).filter (verdict ub)
            = (rest.take e).filter (verdict ub) := by
          rw [List.take_succ_cons, List.filter_cons, if_neg hv]
        have hf2 : ((r :: rest).take (e + 1)).filter (fun r => !verdict ub r)
            = r :: (rest.take e).filter (fun r => !verdict ub r) := by
          rw [List.take_succ_cons, List.filter_cons]; simp [hv]
        refine ⟨e + 1, by simp only [List.length_cons]; omega, ?_, ?_, ?_, ?_, ?_, ?_⟩
        · rw [hb, h1]; omega
        · rw [hb, h2, hf1]
        · rw [hb, h3, hf2, List.length_cons]; omega
        · rw [hb, h4, List.take_succ_cons, chunkText_cons_invalid ub r _ hv]
        · intro hlt
          rw [hb]
          exact h5 (by simp only [List.length_cons] at hlt; omega)
        · intro j hj
          cases j with
          | zero => simpa [chunkText_nil] using hlen
          | succ j =>
            have := h6 j (by omega)
            rw [List.take_succ_cons, chunkText_cons_invalid ub r _ hv]
            exact this
    · have hb : buildFrom ub (r :: rest) c
          = { c with sdRecordsCount := c.sdRecordsCount + 1 } := by
        simp only [buildFrom, if_neg hlen]
      refine ⟨0, Nat.zero_le _, ?_, ?_, ?_, ?_, ?_, ?_⟩
      · rw [hb]
      · rw [hb]; simp
      · rw [hb]; simp
      · rw [hb]; simp [chunkText_nil]
      · intro _
        rw [hb]; dsimp only; omega
      · intro j hj; omega

/-- One run of the chunk-build loop on a whole queue. -/
theorem buildChunk_spec (ub : Record → Bool) (q : List Record) :
    ∃ e, e ≤ q.length
      ∧ (buildChunk ub q).sdRecordsCount = e + 1
      ∧ (buildChunk ub q).sdRecordsOK = ((q.take e).filter (verdict ub)).length
      ∧ (buildChunk ub q).sdRecordsError = ((q.take e).filter (fun r => !verdict ub r)).length
      ∧ (buildChunk ub q).buffer = chunkText ub (q.take e)
      ∧ (e < q.length → 1150 ≤ (buildChunk ub q).buffer.length)
      ∧ (∀ j, j < e → (chunkText ub (q.take j)).length < 1150) := by
  obtain ⟨e, he, h1, h2, h3, h4, h5, h6⟩ := buildFrom_spec ub q
    { buffer := [], sdRecordsCount := 0, sdRecordsOK := 0, sdRecordsError := 0 }
  rw [← buildChunk_eq] at h1 h2 h3 h4 h5
  dsimp only at h1 h2 h3 h4 h6
  refine ⟨e, he, ?_, ?_, ?_, ?_, h5, ?_⟩
  · rw [h1]; omega
  · rw [h2]; omega
  · rw [h3]; omega
  · rw [h4]; rfl
  · intro j hj; simpa using h6 j hj

theorem filter_split_length (p : Record → Bool) (l : List Record) :
    (l.filter p).length + (l.filter (fun r => !p r)).length = l.length := by
  induction l with
  | nil => rfl
  | cons x xs ih =>
    simp only [List.filter_cons, List.length_cons]
    cases h : p x <;> simp <;> omega

/-- The number handed to `removeElements` on a confirmed chunk is one more
than the number of records examined. -/
theorem buildChunk_count (ub : Record → Bool) (q : List Record) :
    (buildChunk ub q).sdRecordsCount
      = (buildChunk ub q).sdRecordsOK + (buildChunk ub q).sdRecordsError + 1
    ∧ (buildChunk ub q).sdRecordsOK + (buildChunk ub q).sdRecordsError ≤ q.length := by
  obtain ⟨e, he, h1, h2, h3, _, _, _⟩ := buildChunk_spec ub q
  have := filter_split_length (verdict ub) (q.take e)
  rw [List.length_take] at this
  omega

/-! ## Chunk building: consequences -/

theorem chunkText_all_valid (ub : Record → Bool) (l : List Record)
    (h : ∀ r ∈ l, verdict ub r = true) :
    chunkText ub l = (l.map (fun r => r ++ [10])).flatten := by
  rw [chunkText, List.filter_eq_self.mpr h]

theorem length_flatten_terminated (l : List Record) :
    ((l.map (fun r => r ++ [10])).flatten).length = terminatedLength l := by
  induction l with
  | nil => rfl
  | cons r rest ih =>
    simp only [List.map_cons, List.flatten_cons, List.length_append, ih, terminatedLength,
      List.sum_cons, List.length_singleton]

theorem terminatedLength_const (L : Nat) (l : List Record) (h : ∀ r ∈ l, r.length = L) :
    terminatedLength l = l.length * (L + 1) := by
  induction l with
  | nil => simp [terminatedLength]
  | cons r rest ih =>
    have hr : r.length = L := h r (List.mem_cons_self r rest)
    have := ih (fun x hx => h x (List.mem_cons_of_mem r hx))
    simp only [terminatedLength, List.map_cons, List.sum_cons, List.length_cons] at this ⊢
    rw [this, hr, Nat.add_mul, Nat.one_mul, Nat.add_comm]

theorem chunkText_append (ub : Record → Bool) (l1 l2 : List Record) :
    chunkText ub (l1 ++ l2) = chunkText ub l1 ++ chunkText ub l2 := by
  simp [chunkText]

theorem chunkText_eq_nil_iff (ub : Record → Bool) (l : List Record) :
    chunkText ub l = [] ↔ ∀ r ∈ l, verdict ub r = false := by
  induction l with
  | nil => simp [chunkText_nil]
  | cons r rest ih =>
    by_cases hv : verdict ub r = true
    · rw [chunkText_cons_valid ub r rest hv]
      constructor
      · intro h
        have : (r ++ [10] ++ chunkText ub rest).length = 0 := by rw [h]; rfl
        simp at this
      · intro h
        have := h r (List.mem_cons_self r rest)
        rw [hv] at this; cases this
    · rw [chunkText_cons_invalid ub r rest hv, ih]
      have hv' : verdict ub r = false := by simpa using hv
      constructor
      · intro h x hx
        rcases List.mem_cons.mp hx with rfl | hx
        · exact hv'
        · exact h x hx
      · intro h x hx
        exact h x (List.mem_cons_of_mem r hx)

theorem chunkText_single_length (ub : Record → Bool) (r : Record) :
    (chunkText ub [r]).length ≤ r.length + 1 := by
  by_cases hv : verdict ub r = true
  · rw [chunkText_cons_valid ub r [] hv, chunkText_nil]; simp
  · rw [chunkText_cons_invalid ub r [] hv, chunkText_nil]; simp

/-- A chunk built from records that all pass validation. -/
theorem buildChunk_all_valid (ub : Record → Bool) (q : List Record)
    (h : ∀ r ∈ q, verdict ub r = true) :
    ∃ e, e ≤ q.length
      ∧ (buildChunk ub q).sdRecordsCount = e + 1
      ∧ (buildChunk ub q).sdRecordsOK = e
      ∧ (buildChunk ub q).sdRecordsError = 0
      ∧ (buildChunk ub q).buffer = ((q.take e).map (fun r => r ++ [10])).flatten
      ∧ (buildChunk ub q).buffer.length = terminatedLength (q.take e)
      ∧ (e < q.length → 1150 ≤ terminatedLength (q.take e))
      ∧ (∀ j, j < e → terminatedLength (q.take j) < 1150) := by
  obtain ⟨e, he, h1, h2, h3, h4, h5, h6⟩ := buildChunk_spec ub q
  have hsub : ∀ j, ∀ r ∈ q.take j, verdict ub r = true :=
    fun j r hr => h r (List.mem_of_mem_take hr)
  have hb : (buildChunk ub q).buffer = ((q.take e).map (fun r => r ++ [10])).flatten := by
    rw [h4, chunkText_all_valid ub _ (hsub e)]
  have hbl : (buildChunk ub q).buffer.length = terminatedLength (q.take e) := by
    rw [hb, length_flatten_terminated]
  refine ⟨e, he, h1, ?_, ?_, hb, hbl, ?_, ?_⟩
  · rw [h2, List.filter_eq_self.mpr (hsub e), List.length_take]; omega
  · rw [h3, List.filter_eq_nil_iff.mpr (fun r hr => by simp [hsub e r hr])]; rfl
  · intro hlt; rw [← hbl]; exact h5 hlt
  · intro j hj
    have := h6 j hj
    rwa [chunkText_all_valid ub _ (hsub j), length_flatten_terminated] at this

/-- A queue of valid records whose terminated length does not exceed the
ceiling goes into one chunk whole. -/
theorem buildChunk_fits (ub : Record → Bool) (q : List Record)
    (h : ∀ r ∈ q, verdict ub r = true) (hfit : terminatedLength q < 1150) :
    (buildChunk ub q).sdRecordsCount = q.length + 1
      ∧ (buildChunk ub q).sdRecordsOK = q.length
      ∧ (buildChunk ub q).sdRecordsError = 0
      ∧ (buildChunk ub q).buffer = (q.map (fun r => r ++ [10])).flatten
      ∧ (buildChunk ub q).buffer.length = terminatedLength q := by
  obtain ⟨e, he, h1, h2, h3, h4, h5, h6, _⟩ := buildChunk_all_valid ub q h
  have hle : ∀ j, terminatedLength (q.take j) ≤ terminatedLength q := by
    intro j
    have : terminatedLength q
        = terminatedLength (q.take j) + terminatedLength (q.drop j) := by
      conv_lhs => rw [← List.take_append_drop j q]
      simp [terminatedLength]
    omega
  have hee : e = q.length := by
    by_contra hne
    have := h6 (by omega)
    have := hle e
    omega
  subst hee
  rw [List.take_length] at h4 h5
  exact ⟨h1, h2, h3, h4, h5⟩

/-! ## Chunk building: claims -/

theorem sample80_valid (k : Nat) : _validateNmeaChecksum (sample80 k) = some true := by
  apply sentence_valid
  intro b hb
  rcases List.mem_append.mp hb with h | h
  · rw [List.eq_of_mem_replicate h]; decide
  · rw [List.mem_singleton.mp h]; omega

theorem sample80_length (k : Nat) : (sample80 k).length = 80 := by
  rw [sample80, sentence_length]; simp

theorem sampleQueue_valid (n : Nat) : ∀ r ∈ sampleQueue n, _validateNmeaChecksum r = some true := by
  intro r hr
  obtain ⟨k, _, rfl⟩ := List.mem_map.mp hr
  exact sample80_valid k

theorem sampleQueue_length80 (n : Nat) : ∀ r ∈ sampleQueue n, r.length = 80 := by
  intro r hr
  obtain ⟨k, _, rfl⟩ := List.mem_map.mp hr
  exact sample80_length k

theorem sampleQueue_length (n : Nat) : (sampleQueue n).length = n := by
  simp [sampleQueue]

/-- Chunk sizing for `N` valid records of one length `L`. -/
theorem buildChunk_uniform (ub : Record → Bool) (q : List Record) (L : Nat)
    (hvalid : ∀ r ∈ q, _validateNmeaChecksum r = some true)
    (hL : ∀ r ∈ q, r.length = L) :
    (buildChunk ub q).buffer
        = ((q.take (buildChunk ub q).sdRecordsOK).map (fun r => r ++ [10])).flatten
    ∧ (buildChunk ub q).buffer.length = (buildChunk ub q).sdRecordsOK * (L + 1)
    ∧ (buildChunk ub q).sdRecordsOK ≤ q.length
    ∧ ((buildChunk ub q).sdRecordsOK < q.length
        → 1150 ≤ (buildChunk ub q).sdRecordsOK * (L + 1))
    ∧ (∀ j, j < (buildChunk ub q).sdRecordsOK → j * (L + 1) < 1150)
    ∧ (buildChunk ub q).sdRecordsOK = min q.length ((1150 + L) / (L + 1))
    ∧ (buildChunk ub q).buffer.length < 1150 + (L + 1)
    ∧ (buildChunk ub q).sdRecordsError = 0
    ∧ (buildChunk ub q).sdRecordsCount = (buildChunk ub q).sdRecordsOK + 1 := by
  obtain ⟨e, he, h1, h2, h3, h4, h5, h6, h7⟩ :=
    buildChunk_all_valid ub q (fun r hr => verdict_of_valid ub r (hvalid r hr))
  have hlen : ∀ j, j ≤ q.length → terminatedLength (q.take j) = j * (L + 1) := by
    intro j hj
    rw [terminatedLength_const L (q.take j) (fun r hr => hL r (List.mem_of_mem_take hr)),
      List.length_take, Nat.min_eq_left hj]
  have hpos : 0 < L + 1 := Nat.succ_pos L
  obtain ⟨m, hm⟩ : ∃ m, m = (1150 + L) / (L + 1) := ⟨_, rfl⟩
  have hceil : ∀ j, j * (L + 1) < 1150 ↔ j < m := by
    intro j
    rw [hm, Nat.lt_iff_add_one_le (n := (1150 + L) / (L + 1)), Nat.le_div_iff_mul_le hpos,
      Nat.add_mul]
    omega
  have h7' : ∀ j, j < e → j * (L + 1) < 1150 := by
    intro j hj
    have := h7 j hj
    rwa [hlen j (by omega)] at this
  have h6' : e < q.length → 1150 ≤ e * (L + 1) := by
    intro hlt
    have := h6 hlt
    rwa [hlen e he] at this
  have hmin : e = min q.length ((1150 + L) / (L + 1)) := by
    rw [← hm]
    have hem : e ≤ m := by
      rcases Nat.eq_zero_or_pos e with h0 | hp
      · omega
      · have := (hceil (e - 1)).mp (h7' (e - 1) (by omega))
        omega
    rcases Nat.lt_or_ge e q.length with hlt | hge
    · have hn : ¬ e < m := by
        intro hc
        have := (hceil e).mpr hc
        have := h6' hlt
        omega
      omega
    · omega
  have hbound : e * (L + 1) < 1150 + (L + 1) := by
    rcases Nat.eq_zero_or_pos e with h0 | hp
    · subst h0; omega
    · have := h7' (e - 1) (by omega)
      have he1 : e = (e - 1) + 1 := by omega
      rw [he1, Nat.add_mul]
      omega
  rw [h2, h3, h1, h5, hlen e he]
  exact ⟨h4, rfl, he, h6', h7', hmin, hbound, rfl, rfl⟩

/-- C5 (amended): for every queue of `N` valid records each of length `L`, the
chunk-build loop places in the chunk the smallest prefix of the queue whose
concatenated, newline-terminated length reaches the ceiling of 1150 bytes, or
the whole queue when it stays below: `min N ⌈1150 / (L+1)⌉` records. The chunk
is that prefix, each record followed by a newline; its byte length is below
`1150 + L + 1` and reaches or exceeds 1150 whenever records are left over. -/
theorem chunk_sizing (ub : Record → Bool) (q : List Record) (L : Nat)
    (hvalid : ∀ r ∈ q, _validateNmeaChecksum r = some true)
    (hL : ∀ r ∈ q, r.length = L) :
    (buildChunk ub q).buffer
        = ((q.take (buildChunk ub q).sdRecordsOK).map (fun r => r ++ [10])).flatten
    ∧ (buildChunk ub q).buffer.length = (buildChunk ub q).sdRecordsOK * (L + 1)
    ∧ (buildChunk ub q).sdRecordsOK ≤ q.length
    ∧ ((buildChunk ub q).sdRecordsOK < q.length
        → 1150 ≤ (buildChunk ub q).sdRecordsOK * (L + 1))
    ∧ (∀ j, j < (buildChunk ub q).sdRecordsOK → j * (L + 1) < 1150)
    ∧ (buildChunk ub q).sdRecordsOK = min q.length ((1150 + L) / (L + 1))
    ∧ (buildChunk ub q).buffer.length < 1150 + (L + 1) := by
  obtain ⟨h1, h2, h3, h4, h5, h6, h7, _, _⟩ := buildChunk_uniform ub q L hvalid hL
  exact ⟨h1, h2, h3, h4, h5, h6, h7⟩

/-- C5 witness: twenty valid records of 80 bytes. -/
theorem chunk_sizing_witness :
    (∀ r ∈ sampleQueue 20, _validateNmeaChecksum r = some true)
    ∧ (∀ r ∈ sampleQueue 20, r.length = 80)
    ∧ (buildChunk (fun _ => false) (sampleQueue 20)).sdRecordsOK
        = min (sampleQueue 20).length ((1150 + 80) / (80 + 1)) :=
  ⟨sampleQueue_valid 20, sampleQueue_length80 20,
    (chunk_sizing (fun _ => false) (sampleQueue 20) 80 (sampleQueue_valid 20)
      (sampleQueue_length80 20)).2.2.2.2.2.1⟩

/-- C5 counterexample: with twenty valid records of 80 bytes the loop puts 15
records, 1215 bytes, in the chunk; the largest prefix whose newline-terminated
length stays below 1150 has 14 records, and 1215 is not below 1150. -/
theorem chunk_sizing_counterexample :
    (∀ r ∈ sampleQueue 20, _validateNmeaChecksum r = some true)
    ∧ (∀ r ∈ sampleQueue 20, r.length = 80)
    ∧ (buildChunk (fun _ => false) (sampleQueue 20)).sdRecordsOK = 15
    ∧ largestPrefixBelow 1150 (sampleQueue 20) = 14
    ∧ (buildChunk (fun _ => false) (sampleQueue 20)).buffer.length = 1215 := by
  obtain ⟨_, h2, _, _, _, h6, _, _, _⟩ := buildChunk_uniform (fun _ => false) (sampleQueue 20) 80
    (sampleQueue_valid 20) (sampleQueue_length80 20)
  rw [sampleQueue_length] at h6
  have hk : (buildChunk (fun _ => false) (sampleQueue 20)).sdRecordsOK = 15 := by
    rw [h6]; decide
  refine ⟨sampleQueue_valid 20, sampleQueue_length80 20, hk, ?_, ?_⟩
  · have hlen : ∀ k, k ≤ 20 → terminatedLength ((sampleQueue 20).take k) = k * 81 := by
      intro k hk
      rw [terminatedLength_const 80 _
        (fun r hr => sampleQueue_length80 20 r (List.mem_of_mem_take hr)),
        List.length_take, sampleQueue_length, Nat.min_eq_left hk]
    have hf : (List.range ((sampleQueue 20).length + 1)).filter
          (fun k => decide (terminatedLength ((sampleQueue 20).take k) < 1150))
        = (List.range 21).filter (fun k => decide (k * 81 < 1150)) := by
      rw [sampleQueue_length]
      apply List.filter_congr
      intro k hk
      rw [hlen k (by have := List.mem_range.mp hk; omega)]
    rw [largestPrefixBelow, hf]
    decide
  · rw [h2, hk]

/-- Bound, termination and emptiness of a chunk, for any queue. -/
theorem buildChunk_bound (ub : Record → Bool) (q : List Record) (M : Nat)
    (hM : ∀ r ∈ q, r.length ≤ M) :
    (buildChunk ub q).buffer.length ≤ 1149 + M + 1
    ∧ (buildChunk ub q).sdRecordsOK + (buildChunk ub q).sdRecordsError ≤ SDQueue.getCount q
    ∧ ((buildChunk ub q).buffer = []
        ↔ ∀ r ∈ q.take ((buildChunk ub q).sdRecordsOK + (buildChunk ub q).sdRecordsError),
            verdict ub r = false) := by
  obtain ⟨e, he, h1, h2, h3, h4, h5, h6⟩ := buildChunk_spec ub q
  have hsum : (buildChunk ub q).sdRecordsOK + (buildChunk ub q).sdRecordsError = e := by
    have := filter_split_length (verdict ub) (q.take e)
    rw [List.length_take] at this
    omega
  refine ⟨?_, ?_, ?_⟩
  · rw [h4]
    rcases Nat.eq_zero_or_pos e with h0 | hp
    · subst h0; simp [chunkText_nil]
    · obtain ⟨k, rfl⟩ : ∃ k, e = k + 1 := ⟨e - 1, by omega⟩
      have hk : k < q.length := by omega
      have hprev := h6 k (by omega)
      have hsplit : q.take (k + 1) = q.take k ++ [q[k]] := by
        rw [List.take_succ, List.getElem?_eq_getElem hk]; rfl
      have hlast := chunkText_single_length ub q[k]
      have hrec : q[k].length ≤ M := hM _ (List.getElem_mem hk)
      rw [hsplit, chunkText_append, List.length_append]
      omega
  · rw [hsum]; exact he
  · rw [hsum, h4]; exact chunkText_eq_nil_iff ub _

/-- C10: for every queue content in which every record has length at most `M`,
the chunk produced by the chunk-build loop has byte length at most
`1149 + M + 1`; the loop (a total function) ends after examining at most
`getCount()` records; and the chunk is empty if and only if no examined record
passed checksum validation. -/
theorem upload_buffer_bound (ub : Record → Bool) (q : List Record) (M : Nat)
    (hM : ∀ r ∈ q, r.length ≤ M) :
    (buildChunk ub q).buffer.length ≤ 1149 + M + 1
    ∧ (buildChunk ub q).sdRecordsOK + (buildChunk ub q).sdRecordsError ≤ SDQueue.getCount q
    ∧ ((buildChunk ub q).buffer = []
        ↔ ∀ r ∈ q.take ((buildChunk ub q).sdRecordsOK + (buildChunk ub q).sdRecordsError),
            verdict ub r = false) :=
  buildChunk_bound ub q M hM

/-- C10 witness: a queue holding a corrupted record and a valid sentence, with
`M = 99`. -/
theorem upload_buffer_bound_witness :
    (∀ r ∈ [bytes "$GPRMC,corrupt*00\r", sentence (bytes "GPGGA,1")], r.length ≤ 99)
    ∧ (buildChunk (fun _ => false)
          [bytes "$GPRMC,corrupt*00\r", sentence (bytes "GPGGA,1")]).buffer.length
        ≤ 1149 + 99 + 1 :=
  ⟨by decide,
    (upload_buffer_bound (fun _ => false)
      [bytes "$GPRMC,corrupt*00\r", sentence (bytes "GPGGA,1")] 99 (by decide)).1⟩

/-! ## Upload round: lemmas -/

theorem readStringUntil_split (t : Nat) (a b : List Nat) (h : ∀ c ∈ a, c ≠ t) :
    readStringUntil t (a ++ t :: b) = (a, b) := by
  induction a with
  | nil => simp [readStringUntil, List.takeWhile, List.dropWhile]
  | cons x xs ih =>
    have hx : (x != t) = true := by
      simpa using h x (List.mem_cons_self x xs)
    have := ih (fun c hc => h c (List.mem_cons_of_mem x hc))
    simp only [readStringUntil, Prod.mk.injEq] at this ⊢
    rw [List.cons_append, List.takeWhile_cons_of_pos (p := fun c => c != t) hx,
      List.dropWhile_cons_of_pos (p := fun c => c != t) hx]
    exact ⟨by rw [this.1], this.2⟩

/-- A response that starts with a non-empty token, a space, the status code and
a space is read as that status code. -/
theorem response_parse (proto code rest : List Nat) (hp : ∀ c ∈ proto, c ≠ 32)
    (hc : ∀ c ∈ code, c ≠ 32) :
    (readStringUntil CHAR_SPACE (proto ++ 32 :: (code ++ 32 :: rest))).1 = proto
    ∧ (readStringUntil CHAR_SPACE
        (readStringUntil CHAR_SPACE (proto ++ 32 :: (code ++ 32 :: rest))).2).1 = code := by
  rw [CHAR_SPACE, readStringUntil_split 32 proto _ hp]
  exact ⟨rfl, by rw [readStringUntil_split 32 code _ hc]⟩

theorem created_parse (rest : List Nat) :
    15 ≤ (bytes "HTTP/1.1 201 Created" ++ rest).length
    ∧ (readStringUntil CHAR_SPACE (bytes "HTTP/1.1 201 Created" ++ rest)).1.length > 0
    ∧ (readStringUntil CHAR_SPACE
        (readStringUntil CHAR_SPACE (bytes "HTTP/1.1 201 Created" ++ rest)).2).1
        = bytes "201" := by
  have e : bytes "HTTP/1.1 201 Created" ++ rest
      = bytes "HTTP/1.1" ++ 32 :: (bytes "201" ++ 32 :: (bytes "Created" ++ rest)) := by
    have : bytes "HTTP/1.1 201 Created"
        = bytes "HTTP/1.1" ++ 32 :: (bytes "201" ++ 32 :: bytes "Created") := by decide
    rw [this]; simp
  obtain ⟨h1, h2⟩ := response_parse (bytes "HTTP/1.1") (bytes "201") (bytes "Created" ++ rest)
    (by decide) (by decide)
  refine ⟨?_, ?_, ?_⟩
  · rw [List.length_append]
    have : (bytes "HTTP/1.1 201 Created").length = 20 := by decide
    omega
  · rw [e, h1]; decide
  · rw [e, h2]

theorem error_parse (rest : List Nat) :
    15 ≤ (bytes "HTTP/1.1 500 Error" ++ rest).length
    ∧ (readStringUntil CHAR_SPACE (bytes "HTTP/1.1 500 Error" ++ rest)).1.length > 0
    ∧ (readStringUntil CHAR_SPACE
        (readStringUntil CHAR_SPACE (bytes "HTTP/1.1 500 Error" ++ rest)).2).1
        ≠ bytes "201" := by
  have e : bytes "HTTP/1.1 500 Error" ++ rest
      = bytes "HTTP/1.1" ++ 32 :: (bytes "500" ++ 32 :: (bytes "Error" ++ rest)) := by
    have : bytes "HTTP/1.1 500 Error"
        = bytes "HTTP/1.1" ++ 32 :: (bytes "500" ++ 32 :: bytes "Error") := by decide
    rw [this]; simp
  obtain ⟨h1, h2⟩ := response_parse (bytes "HTTP/1.1") (bytes "500") (bytes "Error" ++ rest)
    (by decide) (by decide)
  refine ⟨?_, ?_, ?_⟩
  · rw [List.length_append]
    have : (bytes "HTTP/1.1 500 Error").length = 18 := by decide
    omega
  · rw [e, h1]; decide
  · rw [e, h2]; decide

theorem roundLoop_stop (ub : Record → Bool) (env : Nat → Exchange) (i : Nat) (s : State)
    (h : ¬ (i < 10 ∧ (env i).inTime = true)) : roundLoop ub env i s = s := by
  rw [roundLoop, if_neg h]

theorem buildChunk_nil (ub : Record → Bool) :
    buildChunk ub [] = { buffer := [], sdRecordsCount := 1, sdRecordsOK := 0, sdRecordsError := 0 } := by
  rw [buildChunk_eq]; rfl

theorem roundLoop_empty (ub : Record → Bool) (env : Nat → Exchange) (i : Nat) (s : State)
    (h : s._sdQueue = []) : roundLoop ub env i s = s := by
  rw [roundLoop]
  split
  · simp only [h, buildChunk_nil, List.length_nil, gt_iff_lt, Nat.lt_irrefl, if_false]
  · rfl

theorem awaitResponse_some (resp : List Nat) (h : 15 ≤ resp.length) :
    awaitResponse (some resp) = some resp := by
  simp only [awaitResponse]
  rw [if_neg (by omega)]

/-- One pass of the round loop on which the server answers 201. -/
theorem roundLoop_accept (ub : Record → Bool) (env : Nat → Exchange) (i : Nat) (s : State)
    (resp : List Nat) (hi : i < 10) (ht : (env i).inTime = true)
    (hbuf : (buildChunk ub s._sdQueue).buffer.length > 0)
    (hresp : (env i).response = some resp) (hlen : 15 ≤ resp.length)
    (hfirst : (readStringUntil CHAR_SPACE resp).1.length > 0)
    (hcode : (readStringUntil CHAR_SPACE (readStringUntil CHAR_SPACE resp).2).1 = bytes "201") :
    roundLoop ub env i s
      = roundLoop ub env (i + 1)
          (accountSuccess { s with posted := s.posted ++ [(buildChunk ub s._sdQueue).buffer] }
            (buildChunk ub s._sdQueue) (env i).elapsed) := by
  rw [roundLoop, if_pos ⟨hi, ht⟩]
  simp only [hbuf, if_true, hresp, awaitResponse_some resp hlen, hfirst, hcode]

/-- One pass of the round loop on which the server answers with another code. -/
theorem roundLoop_reject (ub : Record → Bool) (env : Nat → Exchange) (i : Nat) (s : State)
    (resp : List Nat) (hi : i < 10) (ht : (env i).inTime = true)
    (hbuf : (buildChunk ub s._sdQueue).buffer.length > 0)
    (hresp : (env i).response = some resp) (hlen : 15 ≤ resp.length)
    (hcode : (readStringUntil CHAR_SPACE (readStringUntil CHAR_SPACE resp).2).1 ≠ bytes "201") :
    roundLoop ub env i s
      = roundLoop ub env (i + 1)
          (accountError { s with posted := s.posted ++ [(buildChunk ub s._sdQueue).buffer] }
            (buildChunk ub s._sdQueue) (env i).elapsed) := by
  rw [roundLoop, if_pos ⟨hi, ht⟩]
  simp only [hbuf, if_true, hresp, awaitResponse_some resp hlen, hcode, if_false]
  split <;> rfl

theorem terminatedLength_eq (l : List Record) :
    terminatedLength l = (l.map List.length).sum + l.length := by
  induction l with
  | nil => rfl
  | cons r rest ih =>
    simp only [terminatedLength, List.map_cons, List.sum_cons, List.length_cons] at ih ⊢
    omega

theorem terminatedLength_pos (l : List Record) (h : l ≠ []) : 0 < terminatedLength l := by
  cases l with
  | nil => exact absurd rfl h
  | cons r rest => simp only [terminatedLength, List.map_cons, List.sum_cons]; omega

/-- After the early exits the round is the round loop from pass 0. -/
theorem send_eq_roundLoop (ub : Record → Bool) (env : RoundEnv) (s : State)
    (hinit : s._initialized = true) (hne : s._sdQueue ≠ []) (hconn : env.connects = true) :
    _sendNextGpsData ub env s = roundLoop ub env.exchanges 0 s := by
  have hcount : ¬ SDQueue.getCount s._sdQueue = 0 := by
    simp only [SDQueue.getCount]
    exact fun h => hne (List.length_eq_zero.mp h)
  have hdef : _sendNextGpsData ub env s
      = (if s._initialized = false then s
         else if SDQueue.getCount s._sdQueue = 0 then s
         else if env.connects = false then
           { s with _totalUploadCountError := s._totalUploadCountError + 1
                    _totalUploadTimeError := s._totalUploadTimeError + env.connectTime }
         else roundLoop ub env.exchanges 0 s) := rfl
  rw [hdef, if_neg (by rw [hinit]; decide), if_neg hcount, if_neg (by rw [hconn]; decide)]

theorem send_of_empty (ub : Record → Bool) (env : RoundEnv) (s : State)
    (hq : s._sdQueue = []) : _sendNextGpsData ub env s = s := by
  have hdef : _sendNextGpsData ub env s
      = (if s._initialized = false then s
         else if SDQueue.getCount s._sdQueue = 0 then s
         else if env.connects = false then
           { s with _totalUploadCountError := s._totalUploadCountError + 1
                    _totalUploadTimeError := s._totalUploadTimeError + env.connectTime }
         else roundLoop ub env.exchanges 0 s) := rfl
  rw [hdef, hq]
  simp [SDQueue.getCount]

/-- A round on a non-empty queue of valid records that fit in one chunk, with
the first exchange answered `201`: the state after the round. -/
theorem send_accepted_state (ub : Record → Bool) (env : RoundEnv) (s : State) (rest : List Nat)
    (hinit : s._initialized = true) (hne : s._sdQueue ≠ [])
    (hvalid : ∀ r ∈ s._sdQueue, _validateNmeaChecksum r = some true)
    (hfit : terminatedLength s._sdQueue < 1150)
    (hconn : env.connects = true) (htime : (env.exchanges 0).inTime = true)
    (hresp : (env.exchanges 0).response = some (bytes "HTTP/1.1 201 Created" ++ rest)) :
    _sendNextGpsData ub env s
      = accountSuccess { s with posted := s.posted ++ [(buildChunk ub s._sdQueue).buffer] }
          (buildChunk ub s._sdQueue) (env.exchanges 0).elapsed := by
  obtain ⟨h1, h2, h3, h4, h5⟩ := buildChunk_fits ub s._sdQueue
    (fun r hr => verdict_of_valid ub r (hvalid r hr)) hfit
  obtain ⟨p1, p2, p3⟩ := created_parse rest
  have hbuf : (buildChunk ub s._sdQueue).buffer.length > 0 := by
    rw [h5]; exact terminatedLength_pos _ hne
  rw [send_eq_roundLoop ub env s hinit hne hconn,
    roundLoop_accept ub env.exchanges 0 s _ (by decide) htime hbuf hresp p1 p2 p3]
  apply roundLoop_empty
  simp only [accountSuccess, SDQueue.removeElements, h1]
  exact List.drop_eq_nil_of_le (by omega)

/-- The outcome of a round answered `201`, for a queue that fits in one chunk. -/
theorem send_accepted (ub : Record → Bool) (env : RoundEnv) (s : State) (rest : List Nat)
    (hinit : s._initialized = true)
    (hvalid : ∀ r ∈ s._sdQueue, _validateNmeaChecksum r = some true)
    (hfit : terminatedLength s._sdQueue < 1150)
    (hconn : env.connects = true) (htime : (env.exchanges 0).inTime = true)
    (hresp : (env.exchanges 0).response = some (bytes "HTTP/1.1 201 Created" ++ rest)) :
    (_sendNextGpsData ub env s)._sdQueue = []
    ∧ (_sendNextGpsData ub env s)._totalUploadRecordsSuccess
        = s._totalUploadRecordsSuccess + s._sdQueue.length
    ∧ (_sendNextGpsData ub env s)._totalUploadBytesSuccess
        = s._totalUploadBytesSuccess + terminatedLength s._sdQueue
    ∧ (_sendNextGpsData ub env s)._totalUploadCountError = s._totalUploadCountError
    ∧ (_sendNextGpsData ub env s)._totalUploadBytesError = s._totalUploadBytesError := by
  by_cases hne : s._sdQueue = []
  · rw [send_of_empty ub env s hne, hne]
    exact ⟨rfl, rfl, rfl, rfl, rfl⟩
  · obtain ⟨h1, h2, h3, h4, h5⟩ := buildChunk_fits ub s._sdQueue
      (fun r hr => verdict_of_valid ub r (hvalid r hr)) hfit
    rw [send_accepted_state ub env s rest hinit hne hvalid hfit hconn htime hresp]
    refine ⟨?_, ?_, ?_, rfl, rfl⟩
    · simp only [accountSuccess, SDQueue.removeElements, h1]
      exact List.drop_eq_nil_of_le (by omega)
    · simp only [accountSuccess, h2]
    · simp only [accountSuccess, h5]

theorem passesFrom_step (env : Nat → Exchange) (i : Nat) (hi : i < 10)
    (ht : (env i).inTime = true) : passesFrom env i = passesFrom env (i + 1) + 1 := by
  have e : 10 - i = (10 - (i + 1)) + 1 := by omega
  rw [passesFrom, e, List.range'_succ,
    List.takeWhile_cons_of_pos (p := fun k => (env k).inTime) ht, List.length_cons]
  rfl

theorem passesFrom_stop (env : Nat → Exchange) (i : Nat)
    (h : ¬ (i < 10 ∧ (env i).inTime = true)) : passesFrom env i = 0 := by
  rcases Nat.lt_or_ge i 10 with hi | hi
  · have ht : ¬ (env i).inTime = true := fun ht => h ⟨hi, ht⟩
    have e : 10 - i = (10 - (i + 1)) + 1 := by omega
    rw [passesFrom, e, List.range'_succ,
      List.takeWhile_cons_of_neg (p := fun k => (env k).inTime) ht]
    rfl
  · have e : 10 - i = 0 := by omega
    rw [passesFrom, e]; rfl

/-- The round loop when every exchange is answered `500`: the same chunk is
sent on every pass. -/
theorem roundLoop_rejected (ub : Record → Bool) (env : Nat → Exchange) (q : List Record)
    (hbuf : (buildChunk ub q).buffer.length > 0)
    (hresp : ∀ i, ∃ rest, (env i).response = some (bytes "HTTP/1.1 500 Error" ++ rest)) :
    ∀ (n i : Nat) (s : State), 10 - i = n → s._sdQueue = q →
      (roundLoop ub env i s)._sdQueue = q
      ∧ (roundLoop ub env i s).removed = s.removed
      ∧ (roundLoop ub env i s)._totalUploadCountError
          = s._totalUploadCountError + passesFrom env i
      ∧ (roundLoop ub env i s)._totalUploadBytesError
          = s._totalUploadBytesError + passesFrom env i * (buildChunk ub q).buffer.length
      ∧ (roundLoop ub env i s)._totalUploadCountSuccess = s._totalUploadCountSuccess
      ∧ (roundLoop ub env i s)._totalUploadBytesSuccess = s._totalUploadBytesSuccess
      ∧ (roundLoop ub env i s)._totalUploadTimeSuccess = s._totalUploadTimeSuccess
      ∧ (roundLoop ub env i s)._totalUploadRecordsSuccess = s._totalUploadRecordsSuccess
      ∧ (roundLoop ub env i s)._totalUploadRecordCRCError = s._totalUploadRecordCRCError := by
  intro n
  induction n with
  | zero =>
    intro i s hn hq
    have hstop : ¬ (i < 10 ∧ (env i).inTime = true) := fun h => by omega
    rw [roundLoop_stop ub env i s hstop, passesFrom_stop env i hstop]
    exact ⟨hq, rfl, rfl, by omega, rfl, rfl, rfl, rfl, rfl⟩
  | succ n ih =>
    intro i s hn hq
    by_cases hgo : i < 10 ∧ (env i).inTime = true
    · obtain ⟨rest, hr⟩ := hresp i
      obtain ⟨p1, _, p3⟩ := error_parse rest
      rw [roundLoop_reject ub env i s _ hgo.1 hgo.2 (by rw [hq]; exact hbuf) hr p1 p3,
        passesFrom_step env i hgo.1 hgo.2]
      obtain ⟨g1, g2, g3, g4, g5, g6, g7, g8, g9⟩ := ih (i + 1)
        (accountError { s with posted := s.posted ++ [(buildChunk ub s._sdQueue).buffer] }
          (buildChunk ub s._sdQueue) (env i).elapsed) (by omega) hq
      have e3 : (accountError
          { s with posted := s.posted ++ [(buildChunk ub s._sdQueue).buffer] }
          (buildChunk ub s._sdQueue) (env i).elapsed)._totalUploadCountError
          = s._totalUploadCountError + 1 := rfl
      have e4 : (accountError
          { s with posted := s.posted ++ [(buildChunk ub s._sdQueue).buffer] }
          (buildChunk ub s._sdQueue) (env i).elapsed)._totalUploadBytesError
          = s._totalUploadBytesError + (buildChunk ub q).buffer.length := by
        rw [← hq]; rfl
      refine ⟨g1, g2, ?_, ?_, g5, g6, g7, g8, g9⟩
      · rw [g3, e3]; omega
      · rw [g4, e4, Nat.add_mul]; omega
    · rw [roundLoop_stop ub env i s hgo, passesFrom_stop env i hgo]
      exact ⟨hq, rfl, rfl, by omega, rfl, rfl, rfl, rfl, rfl⟩

/-- The outcome of a round in which every exchange is answered `500`. -/
theorem send_rejected (ub : Record → Bool) (env : RoundEnv) (s : State)
    (hinit : s._initialized = true) (hne : s._sdQueue ≠ [])
    (hvalid : ∀ r ∈ s._sdQueue, _validateNmeaChecksum r = some true)
    (hfit : terminatedLength s._sdQueue < 1150)
    (hconn : env.connects = true)
    (hresp : ∀ i, ∃ rest,
      (env.exchanges i).response = some (bytes "HTTP/1.1 500 Error" ++ rest)) :
    (_sendNextGpsData ub env s)._sdQueue = s._sdQueue
    ∧ (_sendNextGpsData ub env s).removed = s.removed
    ∧ (_sendNextGpsData ub env s)._totalUploadCountError
        = s._totalUploadCountError + passesFrom env.exchanges 0
    ∧ (_sendNextGpsData ub env s)._totalUploadBytesError
        = s._totalUploadBytesError + passesFrom env.exchanges 0 * terminatedLength s._sdQueue
    ∧ (_sendNextGpsData ub env s)._totalUploadCountSuccess = s._totalUploadCountSuccess
    ∧ (_sendNextGpsData ub env s)._totalUploadBytesSuccess = s._totalUploadBytesSuccess
    ∧ (_sendNextGpsData ub env s)._totalUploadRecordsSuccess = s._totalUploadRecordsSuccess := by
  obtain ⟨_, _, _, _, h5⟩ := buildChunk_fits ub s._sdQueue
    (fun r hr => verdict_of_valid ub r (hvalid r hr)) hfit
  have hbuf : (buildChunk ub s._sdQueue).buffer.length > 0 := by
    rw [h5]; exact terminatedLength_pos _ hne
  have hrun := send_eq_roundLoop ub env s hinit hne hconn
  obtain ⟨g1, g2, g3, g4, g5, g6, _, g8, _⟩ :=
    roundLoop_rejected ub env.exchanges s._sdQueue hbuf hresp 10 0 s rfl rfl
  rw [hrun]
  rw [h5] at g4
  exact ⟨g1, g2, g3, g4, g5, g6, g8⟩

/-! ## Upload round: sample rounds, lemmas -/

theorem sampleQueue_bytes (n : Nat) : ((sampleQueue n).map List.length).sum = 80 * n := by
  have h1 := terminatedLength_const 80 (sampleQueue n) (sampleQueue_length80 n)
  have h2 := terminatedLength_eq (sampleQueue n)
  rw [sampleQueue_length] at h1 h2
  omega

theorem sampleQueue_terminated (n : Nat) : terminatedLength (sampleQueue n) = 81 * n := by
  have h1 := terminatedLength_const 80 (sampleQueue n) (sampleQueue_length80 n)
  rw [sampleQueue_length] at h1
  omega

theorem sampleQueue_ne_nil (n : Nat) (h : 0 < n) : sampleQueue n ≠ [] := by
  intro hc
  have := sampleQueue_length n
  rw [hc] at this
  simp at this
  omega

theorem sample80_last (k : Nat) : (sample80 k)[75]? = some (48 + k % 128) := by
  simp [sample80, sentence]

theorem sample80_fresh (n k : Nat) (hn : n ≤ k) (hk : k < 128) :
    sample80 k ∉ (sampleQueue k).take n ∧ sample80 k ∉ sampleQueue n := by
  have key : ∀ m, m ≤ k → sample80 k ∉ sampleQueue m := by
    intro m hm hmem
    obtain ⟨j, hj, e⟩ := List.mem_map.mp hmem
    have hjm : j < m := List.mem_range.mp hj
    have h1 := sample80_last j
    rw [e, sample80_last k] at h1
    have := Option.some.inj h1
    omega
  exact ⟨fun h => key k (le_refl k) (List.mem_of_mem_take h), key n hn⟩

/-- The round on sixteen valid records of 80 bytes when the server answers
`201`: the chunk holds the first fifteen records and sixteen are removed. -/
theorem overrun_round (ub : Record → Bool) :
    (buildChunk ub (sampleQueue 16)).sdRecordsOK = 15
    ∧ (buildChunk ub (sampleQueue 16)).sdRecordsError = 0
    ∧ (buildChunk ub (sampleQueue 16)).sdRecordsCount = 16
    ∧ (buildChunk ub (sampleQueue 16)).buffer
        = (((sampleQueue 16).take 15).map (fun r => r ++ [10])).flatten
    ∧ _sendNextGpsData ub (answering (bytes "HTTP/1.1 201 Created" ++ bytes "\r\n\r\n"))
          (idleState (sampleQueue 16))
        = accountSuccess
            { idleState (sampleQueue 16) with
              posted := [(buildChunk ub (sampleQueue 16)).buffer] }
            (buildChunk ub (sampleQueue 16)) 100 := by
  obtain ⟨h1, h2, _, _, _, h6, _, h8, h9⟩ := buildChunk_uniform ub (sampleQueue 16) 80
    (sampleQueue_valid 16) (sampleQueue_length80 16)
  rw [sampleQueue_length] at h6
  have hk : (buildChunk ub (sampleQueue 16)).sdRecordsOK = 15 := by rw [h6]; decide
  have hc : (buildChunk ub (sampleQueue 16)).sdRecordsCount = 16 := by rw [h9, hk]
  rw [hk] at h1 h2
  obtain ⟨p1, p2, p3⟩ := created_parse (bytes "\r\n\r\n")
  refine ⟨hk, h8, hc, h1, ?_⟩
  rw [send_eq_roundLoop ub _ _ rfl (sampleQueue_ne_nil 16 (by decide)) rfl,
    roundLoop_accept ub _ 0 (idleState (sampleQueue 16)) _ (by decide) rfl
      (by show (buildChunk ub (sampleQueue 16)).buffer.length > 0; rw [h2]; decide) rfl p1 p2 p3]
  apply roundLoop_empty
  show List.drop (buildChunk ub (sampleQueue 16)).sdRecordsCount (sampleQueue 16) = []
  rw [hc]
  exact List.drop_eq_nil_of_le (by rw [sampleQueue_length])

/-! ## Upload round: claims -/

/-- C1 (failing input): sixteen valid 80-byte records are queued and the server
answers `201`. The only chunk posted is the first fifteen records; the
sixteenth record passes validation, differs from each record sent, was never
appended to a chunk, and is gone from the queue after the round. -/
theorem no_loss_violated :
    (sampleQueue 16)[15]? = some (sample80 15)
    ∧ _validateNmeaChecksum (sample80 15) = some true
    ∧ sample80 15 ∉ (sampleQueue 16).take 15
    ∧ (_sendNextGpsData (fun _ => false)
          (answering (bytes "HTTP/1.1 201 Created" ++ bytes "\r\n\r\n"))
          (idleState (sampleQueue 16))).posted
        = [(((sampleQueue 16).take 15).map (fun r => r ++ [10])).flatten]
    ∧ (_sendNextGpsData (fun _ => false)
          (answering (bytes "HTTP/1.1 201 Created" ++ bytes "\r\n\r\n"))
          (idleState (sampleQueue 16)))._sdQueue = [] := by
  obtain ⟨_, _, hc, hb, hs⟩ := overrun_round (fun _ => false)
  have hfresh : sample80 15 ∉ (sampleQueue 16).take 15 := by
    have e : (sampleQueue 16).take 15 = sampleQueue 15 := by
      simp only [sampleQueue, ← List.map_take, List.take_range]; rfl
    rw [e]
    exact (sample80_fresh 15 15 (le_refl 15) (by decide)).2
  refine ⟨by simp [sampleQueue], sample80_valid 15, hfresh, ?_, ?_⟩
  · rw [hs, ← hb]; rfl
  · rw [hs]
    show List.drop (buildChunk (fun _ => false) (sampleQueue 16)).sdRecordsCount
      (sampleQueue 16) = []
    rw [hc]
    exact List.drop_eq_nil_of_le (by rw [sampleQueue_length])

/-- C4 (failing input): sixteen valid 80-byte records are queued and the server
answers `201`. Fifteen records are examined while the chunk is built (15 valid,
0 invalid) and the delivered counter grows by 15, but `removeElements` is
called with 16. -/
theorem removal_count_overrun :
    (buildChunk (fun _ => false) (sampleQueue 16)).sdRecordsOK = 15
    ∧ (buildChunk (fun _ => false) (sampleQueue 16)).sdRecordsError = 0
    ∧ (_sendNextGpsData (fun _ => false)
          (answering (bytes "HTTP/1.1 201 Created" ++ bytes "\r\n\r\n"))
          (idleState (sampleQueue 16))).removed = [16]
    ∧ (_sendNextGpsData (fun _ => false)
          (answering (bytes "HTTP/1.1 201 Created" ++ bytes "\r\n\r\n"))
          (idleState (sampleQueue 16)))._totalUploadRecordsSuccess = 15 := by
  obtain ⟨hk, he, hc, _, hs⟩ := overrun_round (fun _ => false)
  refine ⟨hk, he, ?_, ?_⟩
  · rw [hs]
    show [] ++ [(buildChunk (fun _ => false) (sampleQueue 16)).sdRecordsCount] = [16]
    rw [hc]; rfl
  · rw [hs]
    show 0 + (buildChunk (fun _ => false) (sampleQueue 16)).sdRecordsOK = 15
    rw [hk]

/-- C6 (amended): for every queue holding `N` valid records totalling `B` bytes
whose chunk (each record followed by a newline, `B + N` bytes) is under the
ceiling of 1150, when the node is set up, the connection opens, the first pass
starts within the time budget and the server answers `HTTP/1.1 201 Created`,
one run of `_sendNextGpsData` leaves the queue empty, increases the
records-delivered counter by exactly `N` and the success byte counter by
exactly `B + N`, and leaves the upload-error count and error bytes unchanged. -/
theorem success_round (ub : Record → Bool) (env : RoundEnv) (s : State) (rest : List Nat)
    (N B : Nat) (hinit : s._initialized = true)
    (hN : s._sdQueue.length = N) (hB : (s._sdQueue.map List.length).sum = B)
    (hvalid : ∀ r ∈ s._sdQueue, _validateNmeaChecksum r = some true)
    (hfit : B + N < 1150)
    (hconn : env.connects = true) (htime : (env.exchanges 0).inTime = true)
    (hresp : (env.exchanges 0).response = some (bytes "HTTP/1.1 201 Created" ++ rest)) :
    (_sendNextGpsData ub env s)._sdQueue = []
    ∧ (_sendNextGpsData ub env s)._totalUploadRecordsSuccess
        = s._totalUploadRecordsSuccess + N
    ∧ (_sendNextGpsData ub env s)._totalUploadBytesSuccess
        = s._totalUploadBytesSuccess + (B + N)
    ∧ (_sendNextGpsData ub env s)._totalUploadCountError = s._totalUploadCountError
    ∧ (_sendNextGpsData ub env s)._totalUploadBytesError = s._totalUploadBytesError := by
  have ht := terminatedLength_eq s._sdQueue
  rw [hB, hN] at ht
  have := send_accepted ub env s rest hinit hvalid (by rw [ht]; exact hfit) hconn htime hresp
  rw [ht, hN] at this
  exact this

/-- C6 witness: five valid records of 80 bytes, 400 bytes in all. -/
theorem success_round_witness :
    (idleState (sampleQueue 5))._initialized = true
    ∧ (idleState (sampleQueue 5))._sdQueue.length = 5
    ∧ ((idleState (sampleQueue 5))._sdQueue.map List.length).sum = 400
    ∧ (∀ r ∈ (idleState (sampleQueue 5))._sdQueue, _validateNmeaChecksum r = some true)
    ∧ 400 + 5 < 1150
    ∧ (_sendNextGpsData (fun _ => false)
          (answering (bytes "HTTP/1.1 201 Created" ++ bytes "\r\n\r\n"))
          (idleState (sampleQueue 5)))._sdQueue = []
    ∧ (_sendNextGpsData (fun _ => false)
          (answering (bytes "HTTP/1.1 201 Created" ++ bytes "\r\n\r\n"))
          (idleState (sampleQueue 5)))._totalUploadRecordsSuccess
        = (idleState (sampleQueue 5))._totalUploadRecordsSuccess + 5 :=
  have h := success_round (fun _ => false)
    (answering (bytes "HTTP/1.1 201 Created" ++ bytes "\r\n\r\n"))
    (idleState (sampleQueue 5)) (bytes "\r\n\r\n") 5 400 rfl (sampleQueue_length 5)
    (sampleQueue_bytes 5) (sampleQueue_valid 5) (by decide) rfl rfl rfl
  ⟨rfl, sampleQueue_length 5, sampleQueue_bytes 5, sampleQueue_valid 5, by decide, h.1, h.2.1⟩

/-- C6 counterexample: five valid records totalling 400 bytes, answered
`HTTP/1.1 201 Created`: the success byte counter goes from 0 to 405, not 400. -/
theorem success_round_bytes_counterexample :
    (sampleQueue 5).length = 5
    ∧ ((sampleQueue 5).map List.length).sum = 400
    ∧ (∀ r ∈ sampleQueue 5, _validateNmeaChecksum r = some true)
    ∧ (idleState (sampleQueue 5))._totalUploadBytesSuccess = 0
    ∧ (_sendNextGpsData (fun _ => false)
          (answering (bytes "HTTP/1.1 201 Created" ++ bytes "\r\n\r\n"))
          (idleState (sampleQueue 5)))._totalUploadBytesSuccess = 405 := by
  have h := send_accepted (fun _ => false)
    (answering (bytes "HTTP/1.1 201 Created" ++ bytes "\r\n\r\n"))
    (idleState (sampleQueue 5)) (bytes "\r\n\r\n") rfl (sampleQueue_valid 5)
    (by show terminatedLength (sampleQueue 5) < 1150; rw [sampleQueue_terminated]; decide)
    rfl rfl rfl
  refine ⟨sampleQueue_length 5, sampleQueue_bytes 5, sampleQueue_valid 5, rfl, ?_⟩
  rw [h.2.2.1]
  show 0 + terminatedLength (sampleQueue 5) = 405
  rw [sampleQueue_terminated]

/-- C7 (amended): for every queue holding `N ≥ 1` valid records totalling `B`
bytes whose chunk (`B + N` bytes with the newlines) is under the ceiling, when
the node is set up, the connection opens and the server answers
`HTTP/1.1 500 Error` to every request, one run of `_sendNextGpsData` removes
no record (the queue is unchanged and `removeElements` is not called) and
leaves the success counters unchanged; the same chunk is sent again on every
pass of the round loop, so the upload-error count increases by exactly `k` and
the error byte counter by exactly `k * (B + N)`, where `k` is the number of
passes made: the passes, at most 10, that start within the 10 s budget. -/
theorem rejected_round (ub : Record → Bool) (env : RoundEnv) (s : State)
    (N B : Nat) (hinit : s._initialized = true)
    (hN : s._sdQueue.length = N) (hpos : 0 < N)
    (hB : (s._sdQueue.map List.length).sum = B)
    (hvalid : ∀ r ∈ s._sdQueue, _validateNmeaChecksum r = some true)
    (hfit : B + N < 1150)
    (hconn : env.connects = true)
    (hresp : ∀ i, ∃ rest,
      (env.exchanges i).response = some (bytes "HTTP/1.1 500 Error" ++ rest)) :
    (_sendNextGpsData ub env s)._sdQueue = s._sdQueue
    ∧ (_sendNextGpsData ub env s).removed = s.removed
    ∧ (_sendNextGpsData ub env s)._totalUploadCountError
        = s._totalUploadCountError + passesFrom env.exchanges 0
    ∧ (_sendNextGpsData ub env s)._totalUploadBytesError
        = s._totalUploadBytesError + passesFrom env.exchanges 0 * (B + N)
    ∧ (_sendNextGpsData ub env s)._totalUploadCountSuccess = s._totalUploadCountSuccess
    ∧ (_sendNextGpsData ub env s)._totalUploadBytesSuccess = s._totalUploadBytesSuccess
    ∧ (_sendNextGpsData ub env s)._totalUploadRecordsSuccess
        = s._totalUploadRecordsSuccess := by
  have ht := terminatedLength_eq s._sdQueue
  rw [hB, hN] at ht
  have hne : s._sdQueue ≠ [] := by
    intro hc; rw [hc] at hN; simp at hN; omega
  have := send_rejected ub env s hinit hne hvalid (by rw [ht]; exact hfit) hconn hresp
  rw [ht] at this
  exact this

/-- C7 witness: five valid records of 80 bytes, every request answered
`HTTP/1.1 500 Error`. -/
theorem rejected_round_witness :
    (idleState (sampleQueue 5))._initialized = true
    ∧ (idleState (sampleQueue 5))._sdQueue.length = 5 ∧ 0 < 5
    ∧ ((idleState (sampleQueue 5))._sdQueue.map List.length).sum = 400
    ∧ (∀ r ∈ (idleState (sampleQueue 5))._sdQueue, _validateNmeaChecksum r = some true)
    ∧ 400 + 5 < 1150
    ∧ (_sendNextGpsData (fun _ => false)
          (answering (bytes "HTTP/1.1 500 Error" ++ bytes "\r\n\r\n"))
          (idleState (sampleQueue 5)))._sdQueue = (idleState (sampleQueue 5))._sdQueue :=
  ⟨rfl, sampleQueue_length 5, by decide, sampleQueue_bytes 5, sampleQueue_valid 5, by decide,
    (rejected_round (fun _ => false)
      (answering (bytes "HTTP/1.1 500 Error" ++ bytes "\r\n\r\n"))
      (idleState (sampleQueue 5)) 5 400 rfl (sampleQueue_length 5) (by decide)
      (sampleQueue_bytes 5) (sampleQueue_valid 5) (by decide) rfl
      (fun _ => ⟨bytes "\r\n\r\n", rfl⟩)).1⟩

/-- C7 counterexample: five valid records totalling 400 bytes, every request
answered `HTTP/1.1 500 Error` and every pass within the time budget: one run
raises the upload-error count from 0 to 10 and the error byte counter from 0
to 4050, not 1 and 400. -/
theorem rejected_round_counterexample :
    (sampleQueue 5).length = 5
    ∧ ((sampleQueue 5).map List.length).sum = 400
    ∧ (∀ r ∈ sampleQueue 5, _validateNmeaChecksum r = some true)
    ∧ (idleState (sampleQueue 5))._totalUploadCountError = 0
    ∧ (idleState (sampleQueue 5))._totalUploadBytesError = 0
    ∧ (_sendNextGpsData (fun _ => false)
          (answering (bytes "HTTP/1.1 500 Error" ++ bytes "\r\n\r\n"))
          (idleState (sampleQueue 5)))._totalUploadCountError = 10
    ∧ (_sendNextGpsData (fun _ => false)
          (answering (bytes "HTTP/1.1 500 Error" ++ bytes "\r\n\r\n"))
          (idleState (sampleQueue 5)))._totalUploadBytesError = 4050 := by
  have h := send_rejected (fun _ => false)
    (answering (bytes "HTTP/1.1 500 Error" ++ bytes "\r\n\r\n"))
    (idleState (sampleQueue 5)) rfl (sampleQueue_ne_nil 5 (by decide)) (sampleQueue_valid 5)
    (by show terminatedLength (sampleQueue 5) < 1150; rw [sampleQueue_terminated]; decide)
    rfl (fun _ => ⟨bytes "\r\n\r\n", rfl⟩)
  have hp : passesFrom (answering (bytes "HTTP/1.1 500 Error" ++ bytes "\r\n\r\n")).exchanges 0
      = 10 := by decide
  refine ⟨sampleQueue_length 5, sampleQueue_bytes 5, sampleQueue_valid 5, rfl, rfl, ?_, ?_⟩
  · rw [h.2.2.1, hp]; rfl
  · rw [h.2.2.2.1, hp]
    show 0 + 10 * terminatedLength (sampleQueue 5) = 4050
    rw [sampleQueue_terminated]

/-! ## Acquisition: lemmas -/

theorem readLoop_retry {σ : Type} (port : SerialPort σ) (GPS_RECORD_LENGTH : Nat)
    (ub : Record → Bool) (pfx : List Nat) (t : Nat) (serial : σ) (acc : List Record)
    (h : verdict ub (assembleRecord GPS_RECORD_LENGTH pfx
          (port.readStringUntil 10 (port.find pfx serial)).1) = false ∧ t < 2) :
    readLoop port GPS_RECORD_LENGTH ub pfx t serial acc
      = readLoop port GPS_RECORD_LENGTH ub pfx (t + 1)
          (port.readStringUntil 10 (port.find pfx serial)).2
          (acc ++ [assembleRecord GPS_RECORD_LENGTH pfx
            (port.readStringUntil 10 (port.find pfx serial)).1]) := by
  rw [readLoop, if_pos h]

theorem readLoop_done {σ : Type} (port : SerialPort σ) (GPS_RECORD_LENGTH : Nat)
    (ub : Record → Bool) (pfx : List Nat) (t : Nat) (serial : σ) (acc : List Record)
    (h : ¬ (verdict ub (assembleRecord GPS_RECORD_LENGTH pfx
          (port.readStringUntil 10 (port.find pfx serial)).1) = false ∧ t < 2)) :
    readLoop port GPS_RECORD_LENGTH ub pfx t serial acc
      = { valid := verdict ub (assembleRecord GPS_RECORD_LENGTH pfx
            (port.readStringUntil 10 (port.find pfx serial)).1)
          gpsRecord := assembleRecord GPS_RECORD_LENGTH pfx
            (port.readStringUntil 10 (port.find pfx serial)).1
          serial := (port.readStringUntil 10 (port.find pfx serial)).2
          target := pfx
          attempts := acc ++ [assembleRecord GPS_RECORD_LENGTH pfx
            (port.readStringUntil 10 (port.find pfx serial)).1] } := by
  rw [readLoop, if_neg h]

/-- What the retry loop does when entered with `t ≤ 2`. -/
theorem readLoop_spec {σ : Type} (port : SerialPort σ) (GPS_RECORD_LENGTH : Nat)
    (ub : Record → Bool) (pfx : List Nat) :
    ∀ (n t : Nat) (serial : σ) (acc : List Record), 2 - t = n → t ≤ 2 →
      ∃ made : List Record,
        (readLoop port GPS_RECORD_LENGTH ub pfx t serial acc).attempts = acc ++ made
        ∧ 1 ≤ made.length ∧ made.length ≤ 3 - t
        ∧ (∀ a ∈ made.dropLast, verdict ub a = false)
        ∧ made.getLast?
            = some (readLoop port GPS_RECORD_LENGTH ub pfx t serial acc).gpsRecord
        ∧ (readLoop port GPS_RECORD_LENGTH ub pfx t serial acc).valid
            = verdict ub (readLoop port GPS_RECORD_LENGTH ub pfx t serial acc).gpsRecord
        ∧ ((readLoop port GPS_RECORD_LENGTH ub pfx t serial acc).valid = false
            → made.length = 3 - t)
        ∧ (readLoop port GPS_RECORD_LENGTH ub pfx t serial acc).target = pfx := by
  intro n
  induction n with
  | zero =>
    intro t serial acc hn ht
    have hdone : ¬ (verdict ub (assembleRecord GPS_RECORD_LENGTH pfx
          (port.readStringUntil 10 (port.find pfx serial)).1) = false ∧ t < 2) :=
      fun h => by omega
    rw [readLoop_done port GPS_RECORD_LENGTH ub pfx t serial acc hdone]
    refine ⟨[_], rfl, ?_, ?_, ?_, rfl, rfl, ?_, rfl⟩
    · simp
    · simp only [List.length_singleton]; omega
    · intro a ha; simp at ha
    · intro _; simp only [List.length_singleton]; omega
  | succ n ih =>
    intro t serial acc hn ht
    by_cases hc : verdict ub (assembleRecord GPS_RECORD_LENGTH pfx
          (port.readStringUntil 10 (port.find pfx serial)).1) = false ∧ t < 2
    · rw [readLoop_retry port GPS_RECORD_LENGTH ub pfx t serial acc hc]
      obtain ⟨made, h1, h2, h3, h4, h5, h6, h7, h8⟩ :=
        ih (t + 1) (port.readStringUntil 10 (port.find pfx serial)).2
          (acc ++ [assembleRecord GPS_RECORD_LENGTH pfx
            (port.readStringUntil 10 (port.find pfx serial)).1]) (by omega) (by omega)
      have hne : made ≠ [] := by
        intro h; rw [h] at h2; simp at h2
      refine ⟨assembleRecord GPS_RECORD_LENGTH pfx
          (port.readStringUntil 10 (port.find pfx serial)).1 :: made, ?_, ?_, ?_, ?_, ?_,
        h6, ?_, h8⟩
      · rw [h1]; simp
      · simp
      · simp only [List.length_cons]; omega
      · intro a ha
        rw [List.dropLast_cons_of_ne_nil hne] at ha
        rcases List.mem_cons.mp ha with rfl | ha
        · exact hc.1
        · exact h4 a ha
      · obtain ⟨x, xs, rfl⟩ := List.exists_cons_of_ne_nil hne
        rw [List.getLast?_cons_cons]
        exact h5
      · intro hv
        have := h7 hv
        simp only [List.length_cons]; omega
    · rw [readLoop_done port GPS_RECORD_LENGTH ub pfx t serial acc hc]
      refine ⟨[_], rfl, ?_, ?_, ?_, rfl, rfl, ?_, rfl⟩
      · simp
      · simp only [List.length_singleton]; omega
      · intro a ha; simp at ha
      · intro hv
        have : ¬ t < 2 := fun h => hc ⟨hv, h⟩
        simp only [List.length_singleton]; omega

/-- What `_readGpsRecord` does. -/
theorem readGpsRecord_spec {σ : Type} (port : SerialPort σ) (GPS_RECORD_LENGTH : Nat)
    (ub : Record → Bool) (pfx : List Nat) (serial : σ) :
    1 ≤ (_readGpsRecord port GPS_RECORD_LENGTH ub pfx serial).attempts.length
    ∧ (_readGpsRecord port GPS_RECORD_LENGTH ub pfx serial).attempts.length ≤ 3
    ∧ (∀ a ∈ (_readGpsRecord port GPS_RECORD_LENGTH ub pfx serial).attempts.dropLast,
        verdict ub a = false)
    ∧ (_readGpsRecord port GPS_RECORD_LENGTH ub pfx serial).attempts.getLast?
        = some (_readGpsRecord port GPS_RECORD_LENGTH ub pfx serial).gpsRecord
    ∧ (_readGpsRecord port GPS_RECORD_LENGTH ub pfx serial).valid
        = verdict ub (_readGpsRecord port GPS_RECORD_LENGTH ub pfx serial).gpsRecord
    ∧ ((_readGpsRecord port GPS_RECORD_LENGTH ub pfx serial).valid = false
        → (_readGpsRecord port GPS_RECORD_LENGTH ub pfx serial).attempts.length = 3)
    ∧ (_readGpsRecord port GPS_RECORD_LENGTH ub pfx serial).target = pfx := by
  obtain ⟨made, h1, h2, h3, h4, h5, h6, h7, h8⟩ :=
    readLoop_spec port GPS_RECORD_LENGTH ub pfx 2 0 serial [] rfl (by decide)
  rw [_readGpsRecord, h1, List.nil_append]
  exact ⟨h2, h3, h4, h5, h6, h7, h8⟩

theorem tickRead_spec {σ : Type} (port : SerialPort σ) (GPS_RECORD_LENGTH : Nat)
    (ub : Record → Bool) (serial : σ) (s : State) :
    1 ≤ (tickRead port GPS_RECORD_LENGTH ub serial s).attempts.length
    ∧ (tickRead port GPS_RECORD_LENGTH ub serial s).attempts.length ≤ 3
    ∧ (∀ a ∈ (tickRead port GPS_RECORD_LENGTH ub serial s).attempts.dropLast,
        verdict ub a = false)
    ∧ (tickRead port GPS_RECORD_LENGTH ub serial s).attempts.getLast?
        = some (tickRead port GPS_RECORD_LENGTH ub serial s).gpsRecord
    ∧ (tickRead port GPS_RECORD_LENGTH ub serial s).valid
        = verdict ub (tickRead port GPS_RECORD_LENGTH ub serial s).gpsRecord
    ∧ ((tickRead port GPS_RECORD_LENGTH ub serial s).valid = false
        → (tickRead port GPS_RECORD_LENGTH ub serial s).attempts.length = 3)
    ∧ (tickRead port GPS_RECORD_LENGTH ub serial s).target
        = (if s._messageType = true then GPS_GGA else GPS_RMC) := by
  unfold tickRead
  split
  · exact readGpsRecord_spec port GPS_RECORD_LENGTH ub GPS_GGA serial
  · exact readGpsRecord_spec port GPS_RECORD_LENGTH ub GPS_RMC serial

/-- The tick when the read succeeds. -/
theorem captureTick_valid {σ : Type} (port : SerialPort σ) (GPS_RECORD_LENGTH : Nat)
    (ub : Record → Bool) (connected : Bool) (serial : σ) (s : State)
    (hv : (tickRead port GPS_RECORD_LENGTH ub serial s).valid = true) :
    (captureTick port GPS_RECORD_LENGTH ub connected serial s).1._sdQueue
        = s._sdQueue ++ [(tickRead port GPS_RECORD_LENGTH ub serial s).gpsRecord]
    ∧ (captureTick port GPS_RECORD_LENGTH ub connected serial s).1._totalRecordsReadSuccess
        = s._totalRecordsReadSuccess + 1
    ∧ (captureTick port GPS_RECORD_LENGTH ub connected serial s).1._totalRecordsReadError
        = s._totalRecordsReadError
    ∧ (captureTick port GPS_RECORD_LENGTH ub connected serial s).1.published
        = (if connected = true then
            s.published ++ [(if s._messageType = true then bytes "gga" else bytes "rmc",
              (tickRead port GPS_RECORD_LENGTH ub serial s).gpsRecord)]
          else s.published) := by
  unfold captureTick
  simp only [hv, if_true, SDQueue.push]
  cases connected <;> cases hm : s._messageType <;> simp

/-- The tick when the read fails. -/
theorem captureTick_invalid {σ : Type} (port : SerialPort σ) (GPS_RECORD_LENGTH : Nat)
    (ub : Record → Bool) (connected : Bool) (serial : σ) (s : State)
    (hv : (tickRead port GPS_RECORD_LENGTH ub serial s).valid = false) :
    (captureTick port GPS_RECORD_LENGTH ub connected serial s).1._sdQueue = s._sdQueue
    ∧ (captureTick port GPS_RECORD_LENGTH ub connected serial s).1._totalRecordsReadSuccess
        = s._totalRecordsReadSuccess
    ∧ (captureTick port GPS_RECORD_LENGTH ub connected serial s).1._totalRecordsReadError
        = s._totalRecordsReadError + 1
    ∧ (captureTick port GPS_RECORD_LENGTH ub connected serial s).1.published = s.published := by
  unfold captureTick
  simp [hv]

/-- The tick flips the target kind and logs the prefix it read. -/
theorem captureTick_flip {σ : Type} (port : SerialPort σ) (GPS_RECORD_LENGTH : Nat)
    (ub : Record → Bool) (connected : Bool) (serial : σ) (s : State) :
    (captureTick port GPS_RECORD_LENGTH ub connected serial s).1._messageType
        = !s._messageType
    ∧ (captureTick port GPS_RECORD_LENGTH ub connected serial s).1.reads
        = s.reads ++ [if s._messageType = true then GPS_GGA else GPS_RMC] := by
  have ht := (tickRead_spec port GPS_RECORD_LENGTH ub serial s).2.2.2.2.2.2
  unfold captureTick
  simp only [ht]
  split
  · split
    · split <;> exact ⟨rfl, rfl⟩
    · exact ⟨rfl, rfl⟩
  · exact ⟨rfl, rfl⟩

/-! ## Acquisition: claims -/

/-- C8: for every behaviour of the serial port, one capture tick makes at least
1 and at most 3 read-and-validate attempts, and every attempt before the last
one fails validation (the loop stops at the first attempt that passes). If
some attempt passes, it is the last one, exactly that record is appended to
the queue, the read-success counter grows by exactly 1 and the read-error
counter is unchanged. If every attempt fails, exactly 3 attempts were made,
the queue is unchanged, the read-error counter grows by exactly 1 and the
read-success counter is unchanged. -/
theorem capture_tick_outcome {σ : Type} (port : SerialPort σ) (GPS_RECORD_LENGTH : Nat)
    (ub : Record → Bool) (connected : Bool) (serial : σ) (s : State) :
    1 ≤ (tickRead port GPS_RECORD_LENGTH ub serial s).attempts.length
    ∧ (tickRead port GPS_RECORD_LENGTH ub serial s).attempts.length ≤ 3
    ∧ (∀ a ∈ (tickRead port GPS_RECORD_LENGTH ub serial s).attempts.dropLast,
        verdict ub a = false)
    ∧ ((∃ a ∈ (tickRead port GPS_RECORD_LENGTH ub serial s).attempts, verdict ub a = true) →
        (tickRead port GPS_RECORD_LENGTH ub serial s).attempts.getLast?
            = some (tickRead port GPS_RECORD_LENGTH ub serial s).gpsRecord
        ∧ verdict ub (tickRead port GPS_RECORD_LENGTH ub serial s).gpsRecord = true
        ∧ (captureTick port GPS_RECORD_LENGTH ub connected serial s).1._sdQueue
            = s._sdQueue ++ [(tickRead port GPS_RECORD_LENGTH ub serial s).gpsRecord]
        ∧ (captureTick port GPS_RECORD_LENGTH ub connected serial s).1._totalRecordsReadSuccess
            = s._totalRecordsReadSuccess + 1
        ∧ (captureTick port GPS_RECORD_LENGTH ub connected serial s).1._totalRecordsReadError
            = s._totalRecordsReadError)
    ∧ ((∀ a ∈ (tickRead port GPS_RECORD_LENGTH ub serial s).attempts, verdict ub a = false) →
        (tickRead port GPS_RECORD_LENGTH ub serial s).attempts.length = 3
        ∧ (captureTick port GPS_RECORD_LENGTH ub connected serial s).1._sdQueue = s._sdQueue
        ∧ (captureTick port GPS_RECORD_LENGTH ub connected serial s).1._totalRecordsReadError
            = s._totalRecordsReadError + 1
        ∧ (captureTick port GPS_RECORD_LENGTH ub connected serial s).1._totalRecordsReadSuccess
            = s._totalRecordsReadSuccess) := by
  obtain ⟨h1, h2, h3, h4, h5, h6, _⟩ := tickRead_spec port GPS_RECORD_LENGTH ub serial s
  have hsplit := List.dropLast_append_getLast? _ h4
  have hmem : (tickRead port GPS_RECORD_LENGTH ub serial s).gpsRecord
      ∈ (tickRead port GPS_RECORD_LENGTH ub serial s).attempts := by
    rw [← hsplit]; simp
  refine ⟨h1, h2, h3, ?_, ?_⟩
  · rintro ⟨a, ha, hva⟩
    have hlast : verdict ub (tickRead port GPS_RECORD_LENGTH ub serial s).gpsRecord = true := by
      rw [← hsplit] at ha
      rcases List.mem_append.mp ha with hd | hl
      · rw [h3 a hd] at hva; cases hva
      · rw [List.mem_singleton.mp hl] at hva; exact hva
    obtain ⟨g1, g2, g3, _⟩ := captureTick_valid port GPS_RECORD_LENGTH ub connected serial s
      (by rw [h5]; exact hlast)
    exact ⟨h4, hlast, g1, g2, g3⟩
  · intro hall
    have hv : (tickRead port GPS_RECORD_LENGTH ub serial s).valid = false := by
      rw [h5]; exact hall _ hmem
    obtain ⟨g1, g2, g3, _⟩ := captureTick_invalid port GPS_RECORD_LENGTH ub connected serial s hv
    exact ⟨h6 hv, g1, g3, g2⟩

/-- C9: every capture tick flips the target sentence kind, whether or not the
read succeeded: a tick reads `$GPGGA` when `_messageType` is set and `$GPRMC`
otherwise, so two consecutive ticks read one of each kind. When a tick captures
a valid record while connected, it publishes exactly that record under `gga` if
the tick read with prefix `$GPGGA` and under `rmc` if it read with `$GPRMC`;
a tick that captures nothing, or is not connected, publishes nothing. -/
theorem alternation_and_tagging {σ : Type} (port : SerialPort σ) (GPS_RECORD_LENGTH : Nat)
    (ub : Record → Bool) (connected connected2 : Bool) (serial serial2 : σ) (s : State) :
    (captureTick port GPS_RECORD_LENGTH ub connected serial s).1._messageType
        = (!s._messageType)
    ∧ (tickRead port GPS_RECORD_LENGTH ub serial s).target
        = (if s._messageType = true then GPS_GGA else GPS_RMC)
    ∧ ((captureTick port GPS_RECORD_LENGTH ub connected2 serial2
          (captureTick port GPS_RECORD_LENGTH ub connected serial s).1).1.reads
          = s.reads ++ [GPS_GGA, GPS_RMC]
        ∨ (captureTick port GPS_RECORD_LENGTH ub connected2 serial2
          (captureTick port GPS_RECORD_LENGTH ub connected serial s).1).1.reads
          = s.reads ++ [GPS_RMC, GPS_GGA])
    ∧ ((tickRead port GPS_RECORD_LENGTH ub serial s).valid = true ∧ connected = true →
        ((tickRead port GPS_RECORD_LENGTH ub serial s).target = GPS_GGA
          ∧ (captureTick port GPS_RECORD_LENGTH ub connected serial s).1.published
            = s.published ++ [(bytes "gga", (tickRead port GPS_RECORD_LENGTH ub serial s).gpsRecord)])
        ∨ ((tickRead port GPS_RECORD_LENGTH ub serial s).target = GPS_RMC
          ∧ (captureTick port GPS_RECORD_LENGTH ub connected serial s).1.published
            = s.published ++ [(bytes "rmc", (tickRead port GPS_RECORD_LENGTH ub serial s).gpsRecord)]))
    ∧ (¬ ((tickRead port GPS_RECORD_LENGTH ub serial s).valid = true ∧ connected = true) →
        (captureTick port GPS_RECORD_LENGTH ub connected serial s).1.published = s.published) := by
  obtain ⟨f1, f2⟩ := captureTick_flip port GPS_RECORD_LENGTH ub connected serial s
  obtain ⟨_, f4⟩ := captureTick_flip port GPS_RECORD_LENGTH ub connected2 serial2
    (captureTick port GPS_RECORD_LENGTH ub connected serial s).1
  have ht := (tickRead_spec port GPS_RECORD_LENGTH ub serial s).2.2.2.2.2.2
  refine ⟨f1, ht, ?_, ?_, ?_⟩
  · rw [f4, f2, f1]
    cases hm : s._messageType
    · right; simp
    · left; simp
  · rintro ⟨hv, hc⟩
    obtain ⟨_, _, _, g4⟩ := captureTick_valid port GPS_RECORD_LENGTH ub connected serial s hv
    rw [g4, ht, if_pos hc]
    cases hm : s._messageType
    · right; exact ⟨by simp, by simp⟩
    · left; exact ⟨by simp, by simp⟩
  · intro hn
    cases hv : (tickRead port GPS_RECORD_LENGTH ub serial s).valid
    · exact (captureTick_invalid port GPS_RECORD_LENGTH ub connected serial s hv).2.2.2
    · obtain ⟨_, _, _, g4⟩ := captureTick_valid port GPS_RECORD_LENGTH ub connected serial s hv
      rw [g4, if_neg (fun hc => hn ⟨hv, hc⟩)]

/-! ## Acquisition: sample ticks -/

theorem tickRead_sample :
    tickRead listPort 100 (fun _ => false) sampleSerial (idleState [])
      = { valid := true
          gpsRecord := bytes "$GPGGA,123519,4807.038,N,01131.000,E,1,08,0.9,545.4,M,46.9,M,,*47\r"
          serial := []
          target := GPS_GGA
          attempts :=
            [bytes "$GPGGA,123519,4807.038,N,01131.000,E,1,08,0.9,545.4,M,46.9,M,,*47\r"] } := by
  rw [tickRead, if_pos (show (idleState [])._messageType = true from rfl), _readGpsRecord, readLoop_done _ _ _ _ _ _ _ (by decide)]
  rfl

theorem tickRead_silent :
    tickRead listPort 100 (fun _ => false) [] (idleState [])
      = { valid := false, gpsRecord := bytes "$GPGGA", serial := [], target := GPS_GGA
          attempts := [bytes "$GPGGA", bytes "$GPGGA", bytes "$GPGGA"] } := by
  rw [tickRead, if_pos (show (idleState [])._messageType = true from rfl), _readGpsRecord, readLoop_retry _ _ _ _ _ _ _ (by decide),
    readLoop_retry _ _ _ _ _ _ _ (by decide), readLoop_done _ _ _ _ _ _ _ (by decide)]
  rfl

/-- C8 witness: on the sample input the first attempt passes, that record is
queued and the read-success counter goes to 1; on a silent port all three
attempts fail, nothing is queued and the read-error counter goes to 1. -/
theorem capture_tick_outcome_witness :
    ((∃ a ∈ (tickRead listPort 100 (fun _ => false) sampleSerial (idleState [])).attempts,
        verdict (fun _ => false) a = true)
      ∧ (captureTick listPort 100 (fun _ => false) true sampleSerial (idleState [])).1._sdQueue
          = [bytes "$GPGGA,123519,4807.038,N,01131.000,E,1,08,0.9,545.4,M,46.9,M,,*47\r"]
      ∧ (captureTick listPort 100 (fun _ => false) true sampleSerial
          (idleState [])).1._totalRecordsReadSuccess = 1)
    ∧ ((∀ a ∈ (tickRead listPort 100 (fun _ => false) [] (idleState [])).attempts,
        verdict (fun _ => false) a = false)
      ∧ (tickRead listPort 100 (fun _ => false) [] (idleState [])).attempts.length = 3
      ∧ (captureTick listPort 100 (fun _ => false) true [] (idleState [])).1._sdQueue = []
      ∧ (captureTick listPort 100 (fun _ => false) true []
          (idleState [])).1._totalRecordsReadError = 1) := by
  have hpass : ∃ a ∈ (tickRead listPort 100 (fun _ => false) sampleSerial (idleState [])).attempts,
      verdict (fun _ => false) a = true := by
    rw [tickRead_sample]
    exact ⟨_, List.mem_singleton.mpr rfl, by decide⟩
  have hfail : ∀ a ∈ (tickRead listPort 100 (fun _ => false) [] (idleState [])).attempts,
      verdict (fun _ => false) a = false := by
    rw [tickRead_silent]
    decide
  obtain ⟨_, _, g3, g4, _⟩ :=
    (capture_tick_outcome listPort 100 (fun _ => false) true sampleSerial (idleState [])).2.2.2.1
      hpass
  obtain ⟨k1, k2, k3, _⟩ :=
    (capture_tick_outcome listPort 100 (fun _ => false) true [] (idleState [])).2.2.2.2 hfail
  rw [tickRead_sample] at g3
  exact ⟨⟨hpass, g3, g4⟩, ⟨hfail, k1, k2, k3⟩⟩

/-- C9 witness: on the sample input, connected, the tick reads with `$GPGGA`
and publishes the record under `gga`; the next tick reads with `$GPRMC`. -/
theorem alternation_and_tagging_witness :
    ((tickRead listPort 100 (fun _ => false) sampleSerial (idleState [])).valid = true
      ∧ true = true)
    ∧ (tickRead listPort 100 (fun _ => false) sampleSerial (idleState [])).target = GPS_GGA
    ∧ (captureTick listPort 100 (fun _ => false) true sampleSerial (idleState [])).1.published
        = [(bytes "gga",
            bytes "$GPGGA,123519,4807.038,N,01131.000,E,1,08,0.9,545.4,M,46.9,M,,*47\r")]
    ∧ (captureTick listPort 100 (fun _ => false) true []
        (captureTick listPort 100 (fun _ => false) true sampleSerial (idleState [])).1).1.reads
        = [GPS_GGA, GPS_RMC] := by
  have hv : (tickRead listPort 100 (fun _ => false) sampleSerial (idleState [])).valid = true
      ∧ true = true := by
    rw [tickRead_sample]; exact ⟨rfl, rfl⟩
  obtain ⟨_, _, h3, h4, _⟩ :=
    alternation_and_tagging listPort 100 (fun _ => false) true true sampleSerial []
      (idleState [])
  have ht : (tickRead listPort 100 (fun _ => false) sampleSerial (idleState [])).target
      = GPS_GGA := by rw [tickRead_sample]
  have hne : GPS_GGA ≠ GPS_RMC := by decide
  refine ⟨hv, ht, ?_, ?_⟩
  · rcases h4 hv with ⟨_, hp⟩ | ⟨hk, _⟩
    · rw [hp, tickRead_sample]; rfl
    · rw [ht] at hk; exact absurd hk hne
  · rcases h3 with h | h
    · exact h
    · have hf := (captureTick_flip listPort 100 (fun _ => false) true []
        (captureTick listPort 100 (fun _ => false) true sampleSerial (idleState [])).1).2
      have hf1 := captureTick_flip listPort 100 (fun _ => false) true sampleSerial (idleState [])
      rw [hf1.2, hf1.1] at hf
      exact hf

end GPSNode
